import Mathlib

/-!
Verification of the tournament engine of fumble_bot_reloaded.

Shallow embedding conventions:
* JS numbers used as integers (scores, counts, Aura) become Nat or Int;
  JS floating-point values (OWP/OOWP tiebreakers, prize proportions) are
  modelled as exact rationals.
* Mongoose documents become plain structures; a database query result
  becomes a list argument; a transactional operation becomes a pure
  function returning Except (errors abort, so the error branch carries no
  new state).
* Math.random-driven behaviour (bracket shuffling, random tie resolution)
  is parameterized by an explicit randomness argument.
-/

namespace FumbleBot

/-- Tournament structural parameters derived from the player count
(getTournamentParameters). -/
structure TournamentParams where
  numSwissRounds : Nat
  topCutSize : Nat
  pointsRequired : Nat
  isTwoPhase : Bool
  phase1Rounds : Nat
  phase2Rounds : Nat
deriving Repr, DecidableEq

/-- Helper building a TournamentParams record; pointsRequired is computed
at the end of the source function as ((numSwissRounds - 3) * 3) + 1. -/
def mkParams (rounds cut : Nat) (two : Bool) (r1 r2 : Nat) : TournamentParams :=
  { numSwissRounds := rounds
    topCutSize := cut
    pointsRequired := (rounds - 3) * 3 + 1
    isTwoPhase := two
    phase1Rounds := r1
    phase2Rounds := r2 }

/-- TournamentService.getTournamentParameters: the fixed lookup table keyed
by participant count.  A top cut size of 0 encodes no cut; fewer than 4
players yields null (none). -/
def getTournamentParameters (playerCount : Nat) : Option TournamentParams :=
  if playerCount < 4 then none
  else if 4 ≤ playerCount ∧ playerCount < 8 then some (mkParams 3 0 false 3 0)
  else if playerCount = 8 then some (mkParams 3 2 false 3 0)
  else if 9 ≤ playerCount ∧ playerCount ≤ 16 then some (mkParams 4 4 false 4 0)
  else if 17 ≤ playerCount ∧ playerCount ≤ 32 then some (mkParams 5 8 false 5 0)
  else if 33 ≤ playerCount ∧ playerCount ≤ 64 then some (mkParams 6 8 false 6 0)
  else if 65 ≤ playerCount ∧ playerCount ≤ 128 then some (mkParams (6 + 2) 16 true 6 2)
  else if 129 ≤ playerCount ∧ playerCount ≤ 256 then some (mkParams (7 + 2) 16 true 7 2)
  else if 257 ≤ playerCount ∧ playerCount ≤ 512 then some (mkParams (8 + 2) 32 true 8 2)
  else if 513 ≤ playerCount ∧ playerCount ≤ 1024 then some (mkParams (8 + 3) 32 true 8 3)
  else if 1025 ≤ playerCount ∧ playerCount ≤ 2048 then some (mkParams (8 + 4) 32 true 8 4)
  else some (mkParams (9 + 4) 32 true 9 4)

/-- What the spec's table promises for one participant-count band:
Swiss round count, top-cut size (0 = no cut), and, when the tournament is
two-phase, the phase-1/phase-2 round split. -/
structure SpecRoundPlan where
  swissRounds : Nat
  topCut : Nat
  phases : Option (Nat × Nat)
deriving Repr, DecidableEq

/-- The round/cut table exactly as the spec states it: 4-7 players give 3
rounds and no cut; 8 gives 3 rounds and top 2; 9-16 gives 4 and top 4;
17-32 gives 5 and top 8; 33-64 gives 6 and top 8; 65-128 gives two-phase
6+2 and top 16; 129-256 gives 7+2 and top 16; 257-512 gives 8+2 and top
32; 513-1024 gives 8+3 and top 32; 1025-2048 gives 8+4 and top 32; 2049 or
more gives 9+4 and top 32; fewer than 4 participants is rejected. -/
def specRoundPlan (n : Nat) : Option SpecRoundPlan :=
  if n < 4 then none
  else if n ≤ 7 then some ⟨3, 0, none⟩
  else if n = 8 then some ⟨3, 2, none⟩
  else if n ≤ 16 then some ⟨4, 4, none⟩
  else if n ≤ 32 then some ⟨5, 8, none⟩
  else if n ≤ 64 then some ⟨6, 8, none⟩
  else if n ≤ 128 then some ⟨6 + 2, 16, some (6, 2)⟩
  else if n ≤ 256 then some ⟨7 + 2, 16, some (7, 2)⟩
  else if n ≤ 512 then some ⟨8 + 2, 32, some (8, 2)⟩
  else if n ≤ 1024 then some ⟨8 + 3, 32, some (8, 3)⟩
  else if n ≤ 2048 then some ⟨8 + 4, 32, some (8, 4)⟩
  else some ⟨9 + 4, 32, some (9, 4)⟩

/-- The spec-facing projection of the source's parameter record. -/
def paramsPlan (p : TournamentParams) : SpecRoundPlan :=
  { swissRounds := p.numSwissRounds
    topCut := p.topCutSize
    phases := if p.isTwoPhase then some (p.phase1Rounds, p.phase2Rounds) else none }

set_option maxRecDepth 8000 in
/-- C7: starting a tournament derives the Swiss round count and top-cut
size from the participant count exactly per the spec's fixed table, with
fewer than 4 participants rejected. -/
theorem getTournamentParameters_matches_spec_table (n : Nat) :
    (getTournamentParameters n).map paramsPlan = specRoundPlan n := by
  unfold getTournamentParameters specRoundPlan
  by_cases h1 : n < 4
  · rw [if_pos h1, if_pos h1]; rfl
  by_cases h2 : n ≤ 7
  · rw [if_neg h1, if_pos (show 4 ≤ n ∧ n < 8 by omega), if_neg h1, if_pos h2]; rfl
  have g2 : ¬(4 ≤ n ∧ n < 8) := by omega
  by_cases h3 : n = 8
  · rw [if_neg h1, if_neg g2, if_pos h3, if_neg h1, if_neg h2, if_pos h3]; rfl
  by_cases h4 : n ≤ 16
  · rw [if_neg h1, if_neg g2, if_neg h3, if_pos (show 9 ≤ n ∧ n ≤ 16 by omega),
        if_neg h1, if_neg h2, if_neg h3, if_pos h4]; rfl
  have g4 : ¬(9 ≤ n ∧ n ≤ 16) := by omega
  by_cases h5 : n ≤ 32
  · rw [if_neg h1, if_neg g2, if_neg h3, if_neg g4,
        if_pos (show 17 ≤ n ∧ n ≤ 32 by omega),
        if_neg h1, if_neg h2, if_neg h3, if_neg h4, if_pos h5]; rfl
  have g5 : ¬(17 ≤ n ∧ n ≤ 32) := by omega
  by_cases h6 : n ≤ 64
  · rw [if_neg h1, if_neg g2, if_neg h3, if_neg g4, if_neg g5,
        if_pos (show 33 ≤ n ∧ n ≤ 64 by omega),
        if_neg h1, if_neg h2, if_neg h3, if_neg h4, if_neg h5, if_pos h6]; rfl
  have g6 : ¬(33 ≤ n ∧ n ≤ 64) := by omega
  by_cases h7 : n ≤ 128
  · rw [if_neg h1, if_neg g2, if_neg h3, if_neg g4, if_neg g5,
        if_neg g6, if_pos (show 65 ≤ n ∧ n ≤ 128 by omega),
        if_neg h1, if_neg h2, if_neg h3, if_neg h4, if_neg h5, if_neg h6, if_pos h7]; rfl
  have g7 : ¬(65 ≤ n ∧ n ≤ 128) := by omega
  by_cases h8 : n ≤ 256
  · rw [if_neg h1, if_neg g2, if_neg h3, if_neg g4, if_neg g5,
        if_neg g6, if_neg g7, if_pos (show 129 ≤ n ∧ n ≤ 256 by omega),
        if_neg h1, if_neg h2, if_neg h3, if_neg h4, if_neg h5, if_neg h6, if_neg h7,
        if_pos h8]; rfl
  have g8 : ¬(129 ≤ n ∧ n ≤ 256) := by omega
  by_cases h9 : n ≤ 512
  · rw [if_neg h1, if_neg g2, if_neg h3, if_neg g4, if_neg g5,
        if_neg g6, if_neg g7, if_neg g8,
        if_pos (show 257 ≤ n ∧ n ≤ 512 by omega),
        if_neg h1, if_neg h2, if_neg h3, if_neg h4, if_neg h5, if_neg h6, if_neg h7,
        if_neg h8, if_pos h9]; rfl
  have g9 : ¬(257 ≤ n ∧ n ≤ 512) := by omega
  by_cases h10 : n ≤ 1024
  · rw [if_neg h1, if_neg g2, if_neg h3, if_neg g4, if_neg g5,
        if_neg g6, if_neg g7, if_neg g8, if_neg g9,
        if_pos (show 513 ≤ n ∧ n ≤ 1024 by omega),
        if_neg h1, if_neg h2, if_neg h3, if_neg h4, if_neg h5, if_neg h6, if_neg h7,
        if_neg h8, if_neg h9, if_pos h10]; rfl
  have g10 : ¬(513 ≤ n ∧ n ≤ 1024) := by omega
  by_cases h11 : n ≤ 2048
  · rw [if_neg h1, if_neg g2, if_neg h3, if_neg g4, if_neg g5,
        if_neg g6, if_neg g7, if_neg g8, if_neg g9,
        if_neg g10, if_pos (show 1025 ≤ n ∧ n ≤ 2048 by omega),
        if_neg h1, if_neg h2, if_neg h3, if_neg h4, if_neg h5, if_neg h6, if_neg h7,
        if_neg h8, if_neg h9, if_neg h10, if_pos h11]; rfl
  have g11 : ¬(1025 ≤ n ∧ n ≤ 2048) := by omega
  rw [if_neg h1, if_neg g2, if_neg h3, if_neg g4, if_neg g5,
      if_neg g6, if_neg g7, if_neg g8, if_neg g9,
      if_neg g10, if_neg g11,
      if_neg h1, if_neg h2, if_neg h3, if_neg h4, if_neg h5, if_neg h6, if_neg h7,
      if_neg h8, if_neg h9, if_neg h10, if_neg h11]
  rfl

/-- A lifetime User document (src/models/User.js); only the fields touched
by updateUserRankPeakLow are modelled (the lifetime counters are carried
by other operations and are irrelevant here).  peakElo/lowestElo are
Option because the source explicitly handles documents where these fields
are undefined or null. -/
structure UserDoc where
  elo : Int
  rank : String
  peakElo : Option Int
  lowestElo : Option Int
deriving Repr, DecidableEq

/-- updateUserRankPeakLow (src/models/User.js lines 100-119): sets elo to
the new value, initializes a missing peakElo/lowestElo from the new value,
then clamps peakElo up and lowestElo down, and recomputes the rank label
via the external findRank threshold table (utils/rank.js, not under src;
passed in as a parameter since nothing here depends on it). -/
def updateUserRankPeakLow (findRank : Int → String → String)
    (u : UserDoc) (newEloValue : Int) : UserDoc :=
  let currentPeakElo := match u.peakElo with
    | none => newEloValue
    | some p => p
  let currentLowestElo := match u.lowestElo with
    | none => newEloValue
    | some l => l
  { u with
    elo := newEloValue
    peakElo := some (max currentPeakElo newEloValue)
    lowestElo := some (min currentLowestElo newEloValue)
    rank := findRank newEloValue u.rank }

/-- After any single update the two bound fields are present. -/
theorem updateUserRankPeakLow_fields (fr : Int → String → String)
    (u : UserDoc) (v : Int) :
    (updateUserRankPeakLow fr u v).peakElo =
      some (max (match u.peakElo with | none => v | some p => p) v) ∧
    (updateUserRankPeakLow fr u v).lowestElo =
      some (min (match u.lowestElo with | none => v | some l => l) v) ∧
    (updateUserRankPeakLow fr u v).elo = v := by
  refine ⟨rfl, rfl, rfl⟩

/-- Folding further updates never decreases a present peakElo and never
increases a present lowestElo. -/
theorem foldl_update_peakLow (fr : Int → String → String) (vs : List Int) :
    ∀ u : UserDoc, ∀ p l : Int, u.peakElo = some p → u.lowestElo = some l →
      ∃ p2 l2, (vs.foldl (updateUserRankPeakLow fr) u).peakElo = some p2 ∧
        (vs.foldl (updateUserRankPeakLow fr) u).lowestElo = some l2 ∧
        p ≤ p2 ∧ l2 ≤ l := by
  induction vs with
  | nil =>
      intro u p l hp hl
      exact ⟨p, l, hp, hl, le_refl _, le_refl _⟩
  | cons v vs ih =>
      intro u p l hp hl
      have hstep := updateUserRankPeakLow_fields fr u v
      rcases ih (updateUserRankPeakLow fr u v)
          (max (match u.peakElo with | none => v | some p => p) v)
          (min (match u.lowestElo with | none => v | some l => l) v)
          hstep.1 hstep.2.1 with ⟨p2, l2, h1, h2, h3, h4⟩
      refine ⟨p2, l2, h1, h2, ?_, ?_⟩
      · calc p = (match u.peakElo with | none => v | some p => p) := by rw [hp]
          _ ≤ max (match u.peakElo with | none => v | some p => p) v := le_max_left _ _
          _ ≤ p2 := h3
      · calc l2 ≤ min (match u.lowestElo with | none => v | some l => l) v := h4
          _ ≤ (match u.lowestElo with | none => v | some l => l) := min_le_left _ _
          _ = l := by rw [hl]

/-- C10: after every successful updateUserRankPeakLow call the document
satisfies lowestElo ≤ elo ≤ peakElo, and across any further sequence of
calls peakElo never decreases and lowestElo never increases. -/
theorem updateUserRankPeakLow_invariant (fr : Int → String → String)
    (u : UserDoc) (v : Int) (vs : List Int) :
    ∃ p1 l1,
      (updateUserRankPeakLow fr u v).peakElo = some p1 ∧
      (updateUserRankPeakLow fr u v).lowestElo = some l1 ∧
      l1 ≤ (updateUserRankPeakLow fr u v).elo ∧
      (updateUserRankPeakLow fr u v).elo ≤ p1 ∧
      (∀ p0, u.peakElo = some p0 → p0 ≤ p1) ∧
      (∀ l0, u.lowestElo = some l0 → l1 ≤ l0) ∧
      ∃ p2 l2,
        (vs.foldl (updateUserRankPeakLow fr) (updateUserRankPeakLow fr u v)).peakElo = some p2 ∧
        (vs.foldl (updateUserRankPeakLow fr) (updateUserRankPeakLow fr u v)).lowestElo = some l2 ∧
        p1 ≤ p2 ∧ l2 ≤ l1 := by
  have hstep := updateUserRankPeakLow_fields fr u v
  refine ⟨max (match u.peakElo with | none => v | some p => p) v,
          min (match u.lowestElo with | none => v | some l => l) v,
          hstep.1, hstep.2.1, ?_, ?_, ?_, ?_, ?_⟩
  · rw [hstep.2.2]; exact min_le_right _ _
  · rw [hstep.2.2]; exact le_max_right _ _
  · intro p0 hp0; rw [hp0]; exact le_max_left _ _
  · intro l0 hl0; rw [hl0]; exact min_le_left _ _
  · rcases foldl_update_peakLow fr vs (updateUserRankPeakLow fr u v) _ _
        hstep.1 hstep.2.1 with ⟨p2, l2, h1, h2, h3, h4⟩
    exact ⟨p2, l2, h1, h2, h3, h4⟩

/-- Witness for C10 at a concrete document and update sequence. -/
theorem updateUserRankPeakLow_invariant_witness :
    ∃ p1 l1,
      (updateUserRankPeakLow (fun _ r => r) ⟨1000, "Iron I", some 1200, some 900⟩ 1100).peakElo = some p1 ∧
      (updateUserRankPeakLow (fun _ r => r) ⟨1000, "Iron I", some 1200, some 900⟩ 1100).lowestElo = some l1 ∧
      l1 ≤ (updateUserRankPeakLow (fun _ r => r) ⟨1000, "Iron I", some 1200, some 900⟩ 1100).elo ∧
      (updateUserRankPeakLow (fun _ r => r) ⟨1000, "Iron I", some 1200, some 900⟩ 1100).elo ≤ p1 ∧
      (∀ p0, (⟨1000, "Iron I", some 1200, some 900⟩ : UserDoc).peakElo = some p0 → p0 ≤ p1) ∧
      (∀ l0, (⟨1000, "Iron I", some 1200, some 900⟩ : UserDoc).lowestElo = some l0 → l1 ≤ l0) ∧
      ∃ p2 l2,
        (([1300, 800] : List Int).foldl (updateUserRankPeakLow (fun _ r => r))
          (updateUserRankPeakLow (fun _ r => r) ⟨1000, "Iron I", some 1200, some 900⟩ 1100)).peakElo = some p2 ∧
        (([1300, 800] : List Int).foldl (updateUserRankPeakLow (fun _ r => r))
          (updateUserRankPeakLow (fun _ r => r) ⟨1000, "Iron I", some 1200, some 900⟩ 1100)).lowestElo = some l2 ∧
        p1 ≤ p2 ∧ l2 ≤ l1 :=
  updateUserRankPeakLow_invariant (fun _ r => r) ⟨1000, "Iron I", some 1200, some 900⟩ 1100 [1300, 800]

/-! ## Bracket engine (generateBracket, src/unnamed/part_002 lines 877-956) -/

/-- getRoundName: the naming convention keyed by the number of players
still alive in the round. -/
def getRoundName (numPlayers : Nat) : String :=
  if numPlayers = 2 then "Finals"
  else if numPlayers = 4 then "Semifinals"
  else if numPlayers = 8 then "Quarterfinals"
  else "Top" ++ toString numPlayers

/-- A slot of a bracket match is fed either directly by a seed (first
round) or by the winner of an earlier match (later rounds). -/
inductive SlotSource where
  | seed (n : Nat)
  | winnerOf (matchId : String)
deriving Repr, DecidableEq

structure BracketMatch where
  matchId : String
  source1 : SlotSource
  source2 : SlotSource
  winnerGoesTo : Option String
deriving Repr, DecidableEq

structure BracketRound where
  name : String
  roundMatches : List BracketMatch
deriving Repr, DecidableEq

/-- One pass of the seed-mirroring loop in getSeedOrder: each seed d is
followed by its mirror (2 * len + 1) - d. -/
def mirrorStep (pls : List Nat) : List Nat :=
  let length := pls.length * 2 + 1
  pls.bind (fun d => [d, length - d])

/-- Math.log2 on the naturals (exact on the powers of two it is applied
to), written with a fuel argument so that it reduces structurally. -/
def log2Aux : Nat → Nat → Nat
  | 0, _ => 0
  | fuel + 1, n => if 2 ≤ n then log2Aux fuel (n / 2) + 1 else 0

def log2N (n : Nat) : Nat := log2Aux n n

/-- getSeedOrder: the recursive mirror seed ordering, iterated
log2(size) - 1 times from the base ordering [1, 2]. -/
def getSeedOrder (size : Nat) : List Nat :=
  if size = 2 then [1, 2]
  else mirrorStep^[log2N size - 1] [1, 2]

/-- Adjacent pairing of a list (the i, i+1 loops of generateBracket);
always applied to power-of-two sized lists, so no element is dropped. -/
def pairUp {α : Type} : List α → List (α × α)
  | a :: b :: rest => (a, b) :: pairUp rest
  | _ => []

/-- The source takes roundName.split(' ')[0] when building match ids:
everything before the first space. -/
def roundIdStem (roundName : String) : String :=
  String.mk (roundName.data.takeWhile (fun c => c ≠ ' '))

/-- The while loop of generateBracket: build this round's matches from the
current matchups, link each pair of consecutive matches to the match the
winners advance to, and recurse on the winner slots.  The fuel argument
only bounds the recursion; the loop halves the matchup count, so fuel
equal to the bracket size is always sufficient. -/
def buildRounds : Nat → List (SlotSource × SlotSource) → List BracketRound
  | 0, _ => []
  | _ + 1, [] => []
  | fuel + 1, mu :: mus =>
      let matchups := mu :: mus
      let roundName := getRoundName (matchups.length * 2)
      let baseMatches : List BracketMatch := matchups.enum.map (fun p =>
        { matchId := if roundName = "Finals" then "Final"
            else roundIdStem roundName ++ "-" ++ toString (p.1 + 1)
          source1 := p.2.1
          source2 := p.2.2
          winnerGoesTo := none })
      let nextRoundName := getRoundName baseMatches.length
      let ms :=
        if 1 < baseMatches.length then
          baseMatches.enum.map (fun p =>
            { p.2 with winnerGoesTo := some (if nextRoundName = "Finals" then "Final"
                else roundIdStem nextRoundName ++ "-" ++ toString (p.1 / 2 + 1)) })
        else baseMatches
      if matchups.length = 1 then [⟨roundName, ms⟩]
      else ⟨roundName, ms⟩ ::
        buildRounds fuel (pairUp (ms.map (fun m => SlotSource.winnerOf m.matchId)))

/-- generateBracket: rejects sizes below 2 and non-powers of two (the
source tests size & (size - 1)), otherwise builds the full round list from
the mirror seed ordering.  The source returns a record also carrying the
size; only the rounds are relevant here. -/
def generateBracket (bracketSize : Nat) : Except String (List BracketRound) :=
  if bracketSize < 2 ∨ bracketSize &&& (bracketSize - 1) ≠ 0 then
    Except.error "Invalid bracket size. Must be a power of 2."
  else
    Except.ok (buildRounds bracketSize (pairUp ((getSeedOrder bracketSize).map SlotSource.seed)))

/-- The seeds named by the first round of a bracket, in slot order. -/
def firstRoundSeeds (rounds : List BracketRound) : List Nat :=
  match rounds with
  | [] => []
  | r :: _ => r.roundMatches.bind (fun m =>
      (match m.source1 with | SlotSource.seed n => [n] | _ => []) ++
      (match m.source2 with | SlotSource.seed n => [n] | _ => []))

/-- Each of 1..n occurs exactly once in l. -/
def eachOnce (l : List Nat) (n : Nat) : Bool :=
  l.length == n && (List.range' 1 n).all (fun k => l.count k == 1)

def allBracketMatches (rounds : List BracketRound) : List BracketMatch :=
  rounds.bind (fun r => r.roundMatches)

def findBracketMatch (ms : List BracketMatch) (mid : String) : Option BracketMatch :=
  ms.find? (fun m => m.matchId == mid)

/-- Following winnerGoesTo links from one match; true when the walk ends
at the match named Final. -/
def chainReachesFinal (ms : List BracketMatch) : Nat → BracketMatch → Bool
  | 0, _ => false
  | fuel + 1, m =>
      match m.winnerGoesTo with
      | none => m.matchId == "Final"
      | some nxt =>
          match findBracketMatch ms nxt with
          | none => false
          | some m2 => chainReachesFinal ms fuel m2

def allChainsReachFinal (rounds : List BracketRound) : Bool :=
  let ms := allBracketMatches rounds
  ms.all (fun m => chainReachesFinal ms (ms.length + 1) m)

def uniqueFinal (rounds : List BracketRound) : Bool :=
  ((allBracketMatches rounds).filter (fun m => m.matchId == "Final")).length == 1

/-- For every match, which seeds can reach it: round-by-round forward
accumulation over the winnerOf links. -/
def sourceSeeds (acc : List (String × List Nat)) : SlotSource → List Nat
  | SlotSource.seed n => [n]
  | SlotSource.winnerOf mid =>
      (((acc.find? (fun p => p.1 == mid)).map Prod.snd).getD [])

def reachMap (rounds : List BracketRound) : List (String × List Nat) :=
  rounds.foldl (fun acc r =>
    acc ++ r.roundMatches.map (fun m =>
      (m.matchId, sourceSeeds acc m.source1 ++ sourceSeeds acc m.source2))) []

/-- Seeds a and b can only meet in the match named Final. -/
def noMeetingBeforeFinal (rounds : List BracketRound) (a b : Nat) : Bool :=
  (reachMap rounds).all (fun p => p.1 == "Final" || !(p.2.contains a && p.2.contains b))

/-- All topology properties C8 asks of one bracket size. -/
def bracketTopologyOK (size : Nat) : Bool :=
  match generateBracket size with
  | Except.error _ => false
  | Except.ok rounds =>
      eachOnce (firstRoundSeeds rounds) size &&
      allChainsReachFinal rounds &&
      uniqueFinal rounds &&
      noMeetingBeforeFinal rounds 1 2

/-- C8: for bracket sizes 2, 4, 8, 16 and 32, generateBracket places each
seed 1..N exactly once in the first round, every winnerGoesTo chain
terminates at the single Final match, and seeds 1 and 2 cannot meet in any
match before the Final. -/
theorem generateBracket_seeding_topology :
    bracketTopologyOK 2 = true ∧ bracketTopologyOK 4 = true ∧
    bracketTopologyOK 8 = true ∧ bracketTopologyOK 16 = true ∧
    bracketTopologyOK 32 = true := by
  refine ⟨?_, ?_, ?_, ?_, ?_⟩ <;> decide

/-! ## Swiss pairing engine
(generateNextSwissRoundPairings / findSwissPairings / backtrackPairings,
src/unnamed/part_002 lines 581-875) -/

/-- The PlayerStats fields consumed by the pairing and standings code.
The discordTag display string and the matchesPlayed id list are carried
along by the source but never influence any decision modelled here. -/
structure PlayerStats where
  userId : Nat
  score : Int
  wins : Nat
  losses : Nat
  draws : Nat
  opponents : List Nat
  opponentsPhase1 : List Nat
  opponentsPhase2 : List Nat
  tiebreaker1_OWP : ℚ
  tiebreaker2_OOWP : ℚ
  receivedByeInRound : Nat
  activeInTournament : Bool
  tiebreakersFrozen : Bool
deriving Repr, DecidableEq

/-- The tournament fields the pairing engine reads. -/
structure TournamentT where
  currentRound : Nat
  isTwoPhase : Bool
  phase1Rounds : Nat
  numSwissRounds : Nat
deriving Repr, DecidableEq

/-- The phase-scoped opponent set used by the rematch check in
backtrackPairings: opponentsPhase2 once currentRound is past phase 1,
opponentsPhase1 before that, and the plain opponents set when the
tournament is single-phase. -/
def opponentsInCurrentPhase (t : TournamentT) (p : PlayerStats) : List Nat :=
  if t.isTwoPhase then
    if t.phase1Rounds < t.currentRound then p.opponentsPhase2
    else p.opponentsPhase1
  else p.opponents

/-- newRemainingPlayers in backtrackPairings: drop both chosen players by
userId. -/
def removeBoth (p1 p2 : PlayerStats) (l : List PlayerStats) : List PlayerStats :=
  l.filter (fun p => (p.userId != p1.userId) && (p.userId != p2.userId))

theorem removeBoth_cons_self (p1 p2 : PlayerStats) (l : List PlayerStats) :
    removeBoth p1 p2 (p1 :: l) = removeBoth p1 p2 l := by
  simp [removeBoth]

theorem removeBoth_length_le (p1 p2 : PlayerStats) (l : List PlayerStats) :
    (removeBoth p1 p2 l).length ≤ l.length :=
  List.length_filter_le _ _

mutual

/-- backtrackPairings: if all players are paired return the accumulated
pairings; an odd remainder is rejected; otherwise the first unpaired
player tries each remaining player in list order. -/
def backtrackPairings (t : TournamentT) (remainingPlayers : List PlayerStats)
    (currentPairings : List (PlayerStats × PlayerStats)) :
    Option (List (PlayerStats × PlayerStats)) :=
  match remainingPlayers with
  | [] => some currentPairings
  | p1 :: rest =>
      if (p1 :: rest).length % 2 ≠ 0 then none
      else tryOpponents t p1 rest rest currentPairings
termination_by (remainingPlayers.length, remainingPlayers.length + 1)
decreasing_by
  apply Prod.Lex.right
  simp only [List.length_cons]
  omega

/-- The inner for loop of backtrackPairings: cands is the not-yet-tried
tail of rest.  A candidate already faced in the current phase scope is
skipped; otherwise the pairing is pushed and the search recurses on the
remainder, backtracking to the next candidate on failure. -/
def tryOpponents (t : TournamentT) (p1 : PlayerStats) (rest : List PlayerStats)
    (cands : List PlayerStats)
    (currentPairings : List (PlayerStats × PlayerStats)) :
    Option (List (PlayerStats × PlayerStats)) :=
  match cands with
  | [] => none
  | p2 :: more =>
      if (opponentsInCurrentPhase t p1).contains p2.userId then
        tryOpponents t p1 rest more currentPairings
      else
        match backtrackPairings t (removeBoth p1 p2 (p1 :: rest))
            (currentPairings ++ [(p1, p2)]) with
        | some result => some result
        | none => tryOpponents t p1 rest more currentPairings
termination_by (rest.length + 1, cands.length + 1)
decreasing_by
  · apply Prod.Lex.right; simp only [List.length_cons]; omega
  · apply Prod.Lex.left
    rw [removeBoth_cons_self]
    exact Nat.lt_succ_of_le (removeBoth_length_le _ _ _)
  · apply Prod.Lex.right; simp only [List.length_cons]; omega

end

/-- The players mentioned by a pairing list, in order. -/
def pairMembers (ps : List (PlayerStats × PlayerStats)) : List PlayerStats :=
  ps.flatMap (fun pr => [pr.1, pr.2])

theorem pairMembers_append (a b : List (PlayerStats × PlayerStats)) :
    pairMembers (a ++ b) = pairMembers a ++ pairMembers b := by
  simp [pairMembers]

/-- With pairwise-distinct userIds, filtering one member out of a list is
inverse to re-consing it (up to permutation). -/
theorem perm_cons_filter_ne (x : PlayerStats) :
    ∀ l : List PlayerStats, (l.map PlayerStats.userId).Nodup → x ∈ l →
      l.Perm (x :: l.filter (fun p => p.userId != x.userId)) := by
  intro l
  induction l with
  | nil => intro _ hx; cases hx
  | cons a as ih =>
      intro hnd hx
      rw [List.map_cons, List.nodup_cons] at hnd
      have hnd1 : a.userId ∉ as.map PlayerStats.userId := hnd.1
      have hnd2 : (as.map PlayerStats.userId).Nodup := hnd.2
      rcases List.mem_cons.mp hx with h | h
      · subst h
        have hfilter : as.filter (fun p => p.userId != x.userId) = as := by
          apply List.filter_eq_self.mpr
          intro p hp
          have hmem : p.userId ∈ as.map PlayerStats.userId := List.mem_map_of_mem _ hp
          have : p.userId ≠ x.userId := fun he => hnd1 (he ▸ hmem)
          simpa using this
        simp [List.filter_cons, hfilter]
      · have hne : a.userId ≠ x.userId := by
          intro he
          exact hnd1 (he ▸ List.mem_map_of_mem _ h)
        have hcond : (a.userId != x.userId) = true := by simpa using hne
        simp only [List.filter_cons, hcond, if_true]
        have step1 : (a :: as).Perm (a :: x :: as.filter (fun p => p.userId != x.userId)) :=
          List.Perm.cons a (ih hnd2 h)
        exact step1.trans (List.Perm.swap _ _ _)

/-- On a tail whose elements all differ from p1 in userId, removeBoth
collapses to filtering out p2 only. -/
theorem removeBoth_eq_filter (p1 p2 : PlayerStats) (rest : List PlayerStats)
    (h1 : p1.userId ∉ rest.map PlayerStats.userId) :
    removeBoth p1 p2 rest = rest.filter (fun p => p.userId != p2.userId) := by
  unfold removeBoth
  apply List.filter_congr
  intro p hp
  have : p.userId ≠ p1.userId := by
    intro he
    exact h1 (he ▸ List.mem_map_of_mem _ hp)
  simp [this]

/-- Re-adding the two removed players recovers the round pool up to
permutation. -/
theorem removeBoth_perm (p1 p2 : PlayerStats) (rest : List PlayerStats)
    (hnd : ((p1 :: rest).map PlayerStats.userId).Nodup) (hp2 : p2 ∈ rest) :
    (p1 :: rest).Perm (p1 :: p2 :: removeBoth p1 p2 (p1 :: rest)) := by
  rw [List.map_cons, List.nodup_cons] at hnd
  rw [removeBoth_cons_self, removeBoth_eq_filter p1 p2 rest hnd.1]
  exact List.Perm.cons p1 (perm_cons_filter_ne p2 rest hnd.2 hp2)

/-- removeBoth only keeps elements of the original list. -/
theorem removeBoth_sublist (p1 p2 : PlayerStats) (l : List PlayerStats) :
    (removeBoth p1 p2 l).Sublist l :=
  List.filter_sublist l

/-- Soundness of the candidate loop of the search, relative to the
induction hypothesis for shorter pools. -/
theorem tryOpponents_spec (t : TournamentT) (n : Nat)
    (ih : ∀ remaining acc res,
      remaining.length ≤ n →
      (remaining.map PlayerStats.userId).Nodup →
      backtrackPairings t remaining acc = some res →
      (pairMembers res).Perm (pairMembers acc ++ remaining) ∧
      ∀ pr ∈ res, pr ∈ acc ∨
        ((opponentsInCurrentPhase t pr.1).contains pr.2.userId = false ∧
         pr.1 ∈ remaining ∧ pr.2 ∈ remaining)) :
    ∀ p1 rest cands acc res,
      rest.length ≤ n →
      ((p1 :: rest).map PlayerStats.userId).Nodup →
      cands ⊆ rest →
      tryOpponents t p1 rest cands acc = some res →
      (pairMembers res).Perm (pairMembers acc ++ (p1 :: rest)) ∧
      ∀ pr ∈ res, pr ∈ acc ∨
        ((opponentsInCurrentPhase t pr.1).contains pr.2.userId = false ∧
         pr.1 ∈ p1 :: rest ∧ pr.2 ∈ p1 :: rest) := by
  intro p1 rest cands
  induction cands with
  | nil =>
      intro acc res _ _ _ hrun
      simp [tryOpponents] at hrun
  | cons p2 more ihc =>
      intro acc res hrest hnd hsub hrun
      simp only [tryOpponents] at hrun
      by_cases hmet : (opponentsInCurrentPhase t p1).contains p2.userId
      · rw [if_pos hmet] at hrun
        exact ihc acc res hrest hnd (fun a ha => hsub (List.mem_cons_of_mem _ ha)) hrun
      rw [if_neg hmet] at hrun
      have hp2rest : p2 ∈ rest := hsub (List.mem_cons_self p2 more)
      rcases hcall : backtrackPairings t (removeBoth p1 p2 (p1 :: rest))
          (acc ++ [(p1, p2)]) with _ | result
      · rw [hcall] at hrun
        exact ihc acc res hrest hnd (fun a ha => hsub (List.mem_cons_of_mem _ ha)) hrun
      · rw [hcall] at hrun
        cases hrun
        have hndc := hnd
        rw [List.map_cons, List.nodup_cons] at hndc
        have hnd2 : (rest.map PlayerStats.userId).Nodup := hndc.2
        have hsubl : (removeBoth p1 p2 (p1 :: rest)).Sublist rest := by
          rw [removeBoth_cons_self]
          exact removeBoth_sublist p1 p2 rest
        have hlen2 : (removeBoth p1 p2 (p1 :: rest)).length ≤ n :=
          le_trans hsubl.length_le hrest
        have hnd3 : ((removeBoth p1 p2 (p1 :: rest)).map PlayerStats.userId).Nodup :=
          List.Nodup.sublist (hsubl.map PlayerStats.userId) hnd2
        rcases ih (removeBoth p1 p2 (p1 :: rest)) (acc ++ [(p1, p2)]) res
            hlen2 hnd3 hcall with ⟨hperm, hpairs⟩
        constructor
        · refine hperm.trans ?_
          rw [pairMembers_append]
          have hback : (p1 :: p2 :: removeBoth p1 p2 (p1 :: rest)).Perm (p1 :: rest) :=
            (removeBoth_perm p1 p2 rest hnd hp2rest).symm
          have heq : pairMembers acc ++ pairMembers [(p1, p2)] ++ removeBoth p1 p2 (p1 :: rest)
              = pairMembers acc ++ (p1 :: p2 :: removeBoth p1 p2 (p1 :: rest)) := by
            simp [pairMembers]
          rw [heq]
          exact List.Perm.append_left _ hback
        · intro pr hpr
          rcases hpairs pr hpr with hacc | ⟨hok, hm1, hm2⟩
          · rcases List.mem_append.mp hacc with h | h
            · exact Or.inl h
            · have : pr = (p1, p2) := by simpa using h
              subst this
              exact Or.inr ⟨by simpa using hmet, List.mem_cons_self p1 rest,
                List.mem_cons_of_mem _ hp2rest⟩
          · have hsub2 : (removeBoth p1 p2 (p1 :: rest)).Sublist (p1 :: rest) :=
              hsubl.trans (List.sublist_cons_self _ _)
            exact Or.inr ⟨hok, hsub2.mem hm1, hsub2.mem hm2⟩

/-- Soundness of the backtracking search, by induction on a length bound:
a returned pairing list mentions exactly the accumulated players plus the
remaining pool (as a permutation), and every pair not already accumulated
passed the phase-scoped rematch check and is drawn from the pool. -/
theorem backtrack_spec (t : TournamentT) :
    ∀ n : Nat, ∀ remaining acc res,
      remaining.length ≤ n →
      (remaining.map PlayerStats.userId).Nodup →
      backtrackPairings t remaining acc = some res →
      (pairMembers res).Perm (pairMembers acc ++ remaining) ∧
      ∀ pr ∈ res, pr ∈ acc ∨
        ((opponentsInCurrentPhase t pr.1).contains pr.2.userId = false ∧
         pr.1 ∈ remaining ∧ pr.2 ∈ remaining) := by
  intro n
  induction n with
  | zero =>
      intro remaining acc res hlen _ hrun
      have hrem : remaining = [] := List.length_eq_zero.mp (Nat.le_zero.mp hlen)
      subst hrem
      simp only [backtrackPairings] at hrun
      cases hrun
      constructor
      · simp [pairMembers]
      · intro pr hpr; exact Or.inl hpr
  | succ n ih =>
      intro remaining acc res hlen hnd hrun
      match remaining with
      | [] =>
          simp only [backtrackPairings] at hrun
          cases hrun
          constructor
          · simp [pairMembers]
          · intro pr hpr; exact Or.inl hpr
      | p1 :: rest =>
          simp only [backtrackPairings] at hrun
          by_cases hodd : (p1 :: rest).length % 2 ≠ 0
          · rw [if_pos hodd] at hrun; cases hrun
          rw [if_neg hodd] at hrun
          have hrest : rest.length ≤ n := by
            simp only [List.length_cons] at hlen; omega
          exact tryOpponents_spec t n ih p1 rest rest acc res hrest hnd
            (fun a ha => ha) hrun

/-- Insertion into the score-group key list: a JS Map keyed by score adds
a key the first time it is seen, preserving insertion order. -/
def insertScore (acc : List Int) (s : Int) : List Int :=
  if acc.contains s then acc else acc ++ [s]

/-- The distinct score keys in first-occurrence order (the keys of the
scoreGroups Map of findSwissPairings). -/
def scoreKeys (players : List PlayerStats) : List Int :=
  players.foldl (fun acc p => insertScore acc p.score) []

theorem insertScore_nodup (acc : List Int) (s : Int) (h : acc.Nodup) :
    (insertScore acc s).Nodup := by
  unfold insertScore
  split
  · exact h
  · next hnc =>
      have : s ∉ acc := by simpa using hnc
      simp [List.nodup_append, h, this]

theorem mem_insertScore (acc : List Int) (s y : Int) :
    y ∈ insertScore acc s ↔ y ∈ acc ∨ y = s := by
  unfold insertScore
  split
  · next hc =>
      have hs : s ∈ acc := by simpa using hc
      constructor
      · exact fun h => Or.inl h
      · rintro (h | rfl)
        · exact h
        · exact hs
  · simp

theorem scoreKeys_foldl_spec (players : List PlayerStats) :
    ∀ acc : List Int, acc.Nodup →
      (players.foldl (fun acc p => insertScore acc p.score) acc).Nodup ∧
      ∀ y, y ∈ players.foldl (fun acc p => insertScore acc p.score) acc ↔
        (y ∈ acc ∨ ∃ p ∈ players, y = p.score) := by
  induction players with
  | nil => intro acc h; simpa using h
  | cons p ps ih =>
      intro acc h
      rcases ih (insertScore acc p.score) (insertScore_nodup acc p.score h) with ⟨h1, h2⟩
      refine ⟨h1, fun y => ?_⟩
      rw [List.foldl_cons] at *
      rw [h2 y, mem_insertScore]
      constructor
      · rintro ((hy | rfl) | ⟨q, hq, rfl⟩)
        · exact Or.inl hy
        · exact Or.inr ⟨p, List.mem_cons_self p ps, rfl⟩
        · exact Or.inr ⟨q, List.mem_cons_of_mem _ hq, rfl⟩
      · rintro (hy | ⟨q, hq, rfl⟩)
        · exact Or.inl (Or.inl hy)
        · rcases List.mem_cons.mp hq with rfl | hq2
          · exact Or.inl (Or.inr rfl)
          · exact Or.inr ⟨q, hq2, rfl⟩

theorem scoreKeys_nodup (players : List PlayerStats) : (scoreKeys players).Nodup :=
  (scoreKeys_foldl_spec players [] List.nodup_nil).1

theorem mem_scoreKeys (players : List PlayerStats) (p : PlayerStats) (hp : p ∈ players) :
    p.score ∈ scoreKeys players := by
  rcases scoreKeys_foldl_spec players [] List.nodup_nil with ⟨_, h2⟩
  exact (h2 p.score).mpr (Or.inr ⟨p, hp, rfl⟩)

/-- findSwissPairings: reject an odd pool, group players by score, shuffle
each group, order the groups by score descending, and run the
backtracking search on the concatenation.  The Fisher-Yates shuffle is
passed in as a function, constrained in the theorems to permute its
input. -/
def findSwissPairings (shuffle : List PlayerStats → List PlayerStats)
    (players : List PlayerStats) (t : TournamentT) :
    Option (List (PlayerStats × PlayerStats)) :=
  if players.length % 2 ≠ 0 then none
  else
    let scoreKeysDesc := (scoreKeys players).insertionSort (fun a b => b ≤ a)
    let orderedPlayers :=
      scoreKeysDesc.flatMap (fun s => shuffle (players.filter (fun p => p.score == s)))
    backtrackPairings t orderedPlayers []

theorem flatMap_perm_congr {α β : Type} (l : List α) (f g : α → List β)
    (h : ∀ a ∈ l, (f a).Perm (g a)) : (l.flatMap f).Perm (l.flatMap g) := by
  induction l with
  | nil => simp
  | cons a as ih =>
      simp only [List.flatMap_cons]
      exact List.Perm.append (h a (List.mem_cons_self a as))
        (ih (fun b hb => h b (List.mem_cons_of_mem _ hb)))

/-- Concatenating the score-group filters over a duplicate-free covering
key list is a permutation of the original pool. -/
theorem flatMap_filter_perm :
    ∀ (keys : List Int) (players : List PlayerStats), keys.Nodup →
      (∀ p ∈ players, p.score ∈ keys) →
      (keys.flatMap (fun s => players.filter (fun p => p.score == s))).Perm players := by
  intro keys
  induction keys with
  | nil =>
      intro players _ hcov
      have : players = [] := by
        cases players with
        | nil => rfl
        | cons p ps => exact absurd (hcov p (List.mem_cons_self p ps)) (by simp)
      simp [this]
  | cons s ks ih =>
      intro players hnd hcov
      rw [List.nodup_cons] at hnd
      simp only [List.flatMap_cons]
      have htail : ∀ s2 ∈ ks,
          players.filter (fun p => p.score == s2)
            = (players.filter (fun p => !(p.score == s))).filter (fun p => p.score == s2) := by
        intro s2 hs2
        rw [List.filter_filter]
        apply List.filter_congr
        intro p _
        by_cases hps : p.score = s2
        · subst hps
          have hne : p.score ≠ s := by
            intro he
            rw [he] at hs2
            exact hnd.1 hs2
          simp [hne]
        · simp [hps]
      have hmap : ks.flatMap (fun s2 => players.filter (fun p => p.score == s2))
          = ks.flatMap (fun s2 =>
              (players.filter (fun p => !(p.score == s))).filter (fun p => p.score == s2)) := by
        simp only [List.flatMap]
        congr 1
        exact List.map_congr_left htail
      rw [hmap]
      have hcov2 : ∀ p ∈ players.filter (fun q => !(q.score == s)), p.score ∈ ks := by
        intro p hp
        rw [List.mem_filter] at hp
        have hcs : p.score ≠ s := by simpa using hp.2
        rcases List.mem_cons.mp (hcov p hp.1) with h | h
        · exact absurd h hcs
        · exact h
      have hperm2 := ih (players.filter (fun q => !(q.score == s))) hnd.2 hcov2
      refine (List.Perm.append_left _ hperm2).trans ?_
      exact List.filter_append_perm _ players

/-- The ordered, shuffled, score-grouped pool is a permutation of the
active pool. -/
theorem orderedPlayers_perm (shuffle : List PlayerStats → List PlayerStats)
    (hshuffle : ∀ l, (shuffle l).Perm l) (players : List PlayerStats) :
    (((scoreKeys players).insertionSort (fun a b => b ≤ a)).flatMap
        (fun s => shuffle (players.filter (fun p => p.score == s)))).Perm players := by
  have hperm : ((scoreKeys players).insertionSort (fun a b => b ≤ a)).Perm (scoreKeys players) :=
    List.perm_insertionSort _ _
  have hnd : ((scoreKeys players).insertionSort (fun a b => b ≤ a)).Nodup :=
    hperm.nodup_iff.mpr (scoreKeys_nodup players)
  have hcov : ∀ p ∈ players, p.score ∈ (scoreKeys players).insertionSort (fun a b => b ≤ a) :=
    fun p hp => hperm.mem_iff.mpr (mem_scoreKeys players p hp)
  refine (flatMap_perm_congr _ _ _ (fun s _ => hshuffle _)).trans ?_
  exact flatMap_filter_perm _ players hnd hcov

/-- The core guarantee of findSwissPairings: a returned pairing set lists
the pool exactly once (as a permutation), and every returned pair passed
the phase-scoped rematch check and is drawn from the pool. -/
theorem findSwissPairings_spec
    (shuffle : List PlayerStats → List PlayerStats) (players : List PlayerStats)
    (t : TournamentT) (res : List (PlayerStats × PlayerStats))
    (hshuffle : ∀ l, (shuffle l).Perm l)
    (hnd : (players.map PlayerStats.userId).Nodup)
    (hrun : findSwissPairings shuffle players t = some res) :
    (pairMembers res).Perm players ∧
    ∀ pr ∈ res,
      (opponentsInCurrentPhase t pr.1).contains pr.2.userId = false ∧
      pr.1 ∈ players ∧ pr.2 ∈ players := by
  unfold findSwissPairings at hrun
  by_cases hodd : players.length % 2 ≠ 0
  · rw [if_pos hodd] at hrun; cases hrun
  rw [if_neg hodd] at hrun
  have hop := orderedPlayers_perm shuffle hshuffle players
  have hndo : ((((scoreKeys players).insertionSort (fun a b => b ≤ a)).flatMap
      (fun s => shuffle (players.filter (fun p => p.score == s)))).map
        PlayerStats.userId).Nodup := by
    exact ((hop.map PlayerStats.userId).nodup_iff).mpr hnd
  rcases backtrack_spec t _ _ [] res (le_refl _) hndo hrun with ⟨hperm, hpairs⟩
  constructor
  · refine hperm.trans ?_
    simpa [pairMembers] using hop
  · intro pr hpr
    rcases hpairs pr hpr with h | ⟨hok, hm1, hm2⟩
    · cases h
    · exact ⟨hok, hop.mem_iff.mp hm1, hop.mem_iff.mp hm2⟩

/-- C1: a pairing set returned by findSwissPairings partitions the pool:
every player appears in exactly one returned pair (the pair members are a
permutation of the pool, which has pairwise-distinct userIds), and no
returned pair has met before in the applicable phase scope (in either
direction, since the recorded opponent relation is symmetric). -/
theorem findSwissPairings_partition_no_rematch
    (shuffle : List PlayerStats → List PlayerStats) (players : List PlayerStats)
    (t : TournamentT) (res : List (PlayerStats × PlayerStats))
    (hshuffle : ∀ l, (shuffle l).Perm l)
    (hnd : (players.map PlayerStats.userId).Nodup)
    (hsym : ∀ p ∈ players, ∀ q ∈ players,
      (opponentsInCurrentPhase t p).contains q.userId = true →
      (opponentsInCurrentPhase t q).contains p.userId = true)
    (hrun : findSwissPairings shuffle players t = some res) :
    (pairMembers res).Perm players ∧
    ∀ pr ∈ res,
      (opponentsInCurrentPhase t pr.1).contains pr.2.userId = false ∧
      (opponentsInCurrentPhase t pr.2).contains pr.1.userId = false := by
  rcases findSwissPairings_spec shuffle players t res hshuffle hnd hrun with ⟨hperm, hpairs⟩
  refine ⟨hperm, fun pr hpr => ?_⟩
  rcases hpairs pr hpr with ⟨hok, hm1, hm2⟩
  refine ⟨hok, ?_⟩
  by_cases hrev : (opponentsInCurrentPhase t pr.2).contains pr.1.userId
  · have := hsym pr.2 hm2 pr.1 hm1 hrev
    rw [this] at hok
    cases hok
  · simpa using hrev

/-- A minimal PlayerStats value for concrete evaluations. -/
def mkStats (uid : Nat) (score : Int) (opps : List Nat) : PlayerStats :=
  ⟨uid, score, 0, 0, 0, opps, [], [], 0, 0, 0, true, false⟩

/-- A single-phase tournament in round 1, 3 Swiss rounds configured. -/
def t1 : TournamentT := ⟨1, false, 0, 3⟩

/-- Witness for C1 at a concrete 4-player pool with no prior meetings. -/
theorem findSwissPairings_partition_no_rematch_witness :
    (pairMembers [(mkStats 1 0 [], mkStats 2 0 []), (mkStats 3 0 [], mkStats 4 0 [])]).Perm
      [mkStats 1 0 [], mkStats 2 0 [], mkStats 3 0 [], mkStats 4 0 []] ∧
    ∀ pr ∈ [(mkStats 1 0 [], mkStats 2 0 []), (mkStats 3 0 [], mkStats 4 0 [])],
      (opponentsInCurrentPhase t1 pr.1).contains pr.2.userId = false ∧
      (opponentsInCurrentPhase t1 pr.2).contains pr.1.userId = false :=
  findSwissPairings_partition_no_rematch (fun l => l)
    [mkStats 1 0 [], mkStats 2 0 [], mkStats 3 0 [], mkStats 4 0 []] t1
    [(mkStats 1 0 [], mkStats 2 0 []), (mkStats 3 0 [], mkStats 4 0 [])]
    (fun l => List.Perm.refl l) (by decide) (by decide)
    (by simp [findSwissPairings, scoreKeys, insertScore, backtrackPairings, tryOpponents,
      opponentsInCurrentPhase, removeBoth, mkStats, t1,
      List.insertionSort, List.orderedInsert])

/-! ## Swiss round generation: bye handling and match creation
(generateNextSwissRoundPairings, src/unnamed/part_002 lines 581-766) -/

/-- A Match document as created by the Swiss pairing generator; the
matchId is the running per-tournament counter (the source renders it as a
zero-padded string). -/
structure MatchDoc where
  matchId : Nat
  roundNumber : Nat
  isTopCutRound : Bool
  player1 : Option Nat
  player2 : Option Nat
  winnerId : Option Nat
  isDraw : Bool
  reported : Bool
deriving Repr, DecidableEq

/-- The bye-selection sort key: score ascending, then OWP ascending, then
OOWP ascending (the worst-standing player is first). -/
def byeKey (p : PlayerStats) : Lex (Int × Lex (ℚ × ℚ)) :=
  toLex (p.score, toLex (p.tiebreaker1_OWP, p.tiebreaker2_OOWP))

def byeLe (a b : PlayerStats) : Prop := byeKey a ≤ byeKey b

instance : DecidableRel byeLe := fun a b => by
  unfold byeLe
  infer_instance

instance : IsTotal PlayerStats byeLe := ⟨fun a b => le_total (byeKey a) (byeKey b)⟩

instance : IsTrans PlayerStats byeLe := ⟨fun _ _ _ hab hbc => le_trans hab hbc⟩

/-- The active players entering the round. -/
def activePlayers (sortedPlayerStats : List PlayerStats) : List PlayerStats :=
  sortedPlayerStats.filter (fun p => p.activeInTournament)

/-- The bye candidate set: players who have not yet received a bye,
falling back to every active player when all have. -/
def byeCandidates (available : List PlayerStats) : List PlayerStats :=
  let potentialByePlayers := available.filter (fun p => p.receivedByeInRound == 0)
  if potentialByePlayers.isEmpty then available else potentialByePlayers

/-- The candidates sorted ascending by (score, OWP, OOWP); the recipient
is the head. -/
def chooseByeRecipient (available : List PlayerStats) : Option PlayerStats :=
  ((byeCandidates available).insertionSort byeLe).head?

/-- Some recipient iff the active count is odd. -/
def byeRecipientThisRound (sortedPlayerStats : List PlayerStats) : Option PlayerStats :=
  if (activePlayers sortedPlayerStats).length % 2 ≠ 0 then
    chooseByeRecipient (activePlayers sortedPlayerStats)
  else none

/-- The pool handed to findSwissPairings: the active players minus the
bye recipient. -/
def pairingPool (sortedPlayerStats : List PlayerStats) : List PlayerStats :=
  match byeRecipientThisRound sortedPlayerStats with
  | some b => (activePlayers sortedPlayerStats).filter (fun p => p.userId != b.userId)
  | none => activePlayers sortedPlayerStats

/-- $addToSet semantics on an opponent list. -/
def addToSet (x : Nat) (l : List Nat) : List Nat :=
  if l.contains x then l else l ++ [x]

/-- The PlayerStats writes issued after the matches are inserted: each
regular pairing adds the opponent relationship on both sides, and the bye
recipient gets 3 score points, one win, and receivedByeInRound set. -/
def applyPairingUpdates (byeRecipient : Option PlayerStats)
    (pairings : List (PlayerStats × PlayerStats)) (currentRoundNumber : Nat)
    (p : PlayerStats) : PlayerStats :=
  let p2 := pairings.foldl (fun q pr =>
    if pr.1.userId = q.userId then
      { q with opponents := addToSet pr.2.userId q.opponents }
    else if pr.2.userId = q.userId then
      { q with opponents := addToSet pr.1.userId q.opponents }
    else q) p
  match byeRecipient with
  | some b =>
      if b.userId = p2.userId then
        { p2 with score := p2.score + 3, wins := p2.wins + 1,
                  receivedByeInRound := currentRoundNumber }
      else p2
  | none => p2

/-- generateNextSwissRoundPairings: select the bye recipient for an odd
pool, search for a complete pairing, and only on success create the match
documents (the bye match first, already reported and won by the
recipient) and the player-stat updates.  A failed search raises before
anything is created; the Except.error branch therefore carries no state,
mirroring the transaction rollback. -/
def generateNextSwissRoundPairings (shuffle : List PlayerStats → List PlayerStats)
    (t : TournamentT) (sortedPlayerStats : List PlayerStats)
    (currentRoundNumber : Nat) (matchCount : Nat) :
    Except String (List MatchDoc × List PlayerStats) :=
  match findSwissPairings shuffle (pairingPool sortedPlayerStats) t with
  | none => Except.error ("Failed to generate Swiss pairings for round "
      ++ toString currentRoundNumber ++ ". This should not happen in normal circumstances.")
  | some pairings =>
      let byeMatches : List MatchDoc :=
        match byeRecipientThisRound sortedPlayerStats with
        | some b => [⟨matchCount + 1, currentRoundNumber, false,
            some b.userId, none, some b.userId, false, true⟩]
        | none => []
      let regularMatches : List MatchDoc := pairings.enum.map (fun pr =>
        ⟨matchCount + byeMatches.length + pr.1 + 1, currentRoundNumber, false,
          some pr.2.1.userId, some pr.2.2.userId, none, false, false⟩)
      let updatedStats := sortedPlayerStats.map
        (applyPairingUpdates (byeRecipientThisRound sortedPlayerStats) pairings currentRoundNumber)
      Except.ok (byeMatches ++ regularMatches, updatedStats)

/-- C5: when the backtracking search exhausts all possibilities, round
generation returns the error before any match document or stat update is
produced: the result is exactly the error value and carries no state, so
the surrounding transaction aborts with nothing persisted and the round
not advanced. -/
theorem generateNext_error_on_pairing_failure
    (shuffle : List PlayerStats → List PlayerStats) (t : TournamentT)
    (sortedPlayerStats : List PlayerStats) (currentRoundNumber matchCount : Nat)
    (hfail : findSwissPairings shuffle (pairingPool sortedPlayerStats) t = none) :
    generateNextSwissRoundPairings shuffle t sortedPlayerStats currentRoundNumber matchCount
      = Except.error ("Failed to generate Swiss pairings for round "
          ++ toString currentRoundNumber
          ++ ". This should not happen in normal circumstances.") := by
  unfold generateNextSwissRoundPairings
  rw [hfail]

/-- Witness for C5: two active players who already met leave no legal
pairing, and generation returns the error. -/
theorem generateNext_error_on_pairing_failure_witness :
    generateNextSwissRoundPairings (fun l => l) t1
      [mkStats 1 3 [2], mkStats 2 3 [1]] 2 1
      = Except.error ("Failed to generate Swiss pairings for round "
          ++ toString 2
          ++ ". This should not happen in normal circumstances.") :=
  generateNext_error_on_pairing_failure (fun l => l) t1
    [mkStats 1 3 [2], mkStats 2 3 [1]] 2 1
    (by simp [findSwissPairings, pairingPool, byeRecipientThisRound, activePlayers,
      scoreKeys, insertScore, backtrackPairings, tryOpponents,
      opponentsInCurrentPhase, removeBoth, mkStats, t1,
      List.insertionSort, List.orderedInsert])

theorem pairMembers_length (ps : List (PlayerStats × PlayerStats)) :
    (pairMembers ps).length = 2 * ps.length := by
  induction ps with
  | nil => simp [pairMembers]
  | cons pr prs ih =>
      simp only [pairMembers, List.flatMap_cons] at *
      simp [ih]
      omega

/-- The head of an insertion sort is a minimal element. -/
theorem head_insertionSort_min (l : List PlayerStats) (b : PlayerStats)
    (hb : (l.insertionSort byeLe).head? = some b) :
    b ∈ l ∧ ∀ q ∈ l, byeLe b q := by
  have hsorted : List.Sorted byeLe (l.insertionSort byeLe) :=
    List.sorted_insertionSort byeLe l
  have hperm : (l.insertionSort byeLe).Perm l := List.perm_insertionSort byeLe l
  rcases hsort : l.insertionSort byeLe with _ | ⟨x, tl⟩
  · rw [hsort] at hb; cases hb
  · rw [hsort] at hb
    have hxb : x = b := by simpa using hb
    subst hxb
    rw [hsort] at hsorted hperm
    refine ⟨hperm.mem_iff.mp (List.mem_cons_self x tl), fun q hq => ?_⟩
    rcases List.mem_cons.mp (hperm.mem_iff.mpr hq) with rfl | hqtl
    · exact le_refl (byeKey q)
    · exact (List.pairwise_cons.mp hsorted).1 q hqtl

theorem byeCandidates_subset (available : List PlayerStats) :
    byeCandidates available ⊆ available := by
  simp only [byeCandidates]
  split
  · exact fun a ha => ha
  · exact fun a ha => (List.mem_filter.mp ha).1

theorem byeCandidates_ne_nil (available : List PlayerStats) (h : available ≠ []) :
    byeCandidates available ≠ [] := by
  simp only [byeCandidates]
  split
  · exact h
  · next hne => simpa [List.isEmpty_iff] using hne

/-- The opponent-recording fold leaves a player untouched when no pairing
mentions their userId. -/
theorem foldl_opponents_noop (pairings : List (PlayerStats × PlayerStats))
    (p : PlayerStats)
    (h : ∀ pr ∈ pairings, pr.1.userId ≠ p.userId ∧ pr.2.userId ≠ p.userId) :
    pairings.foldl (fun q pr =>
      if pr.1.userId = q.userId then
        { q with opponents := addToSet pr.2.userId q.opponents }
      else if pr.2.userId = q.userId then
        { q with opponents := addToSet pr.1.userId q.opponents }
      else q) p = p := by
  induction pairings with
  | nil => rfl
  | cons pr prs ih =>
      have hpr := h pr (List.mem_cons_self pr prs)
      rw [List.foldl_cons, if_neg hpr.1, if_neg hpr.2]
      exact ih (fun pr2 hpr2 => h pr2 (List.mem_cons_of_mem _ hpr2))

/-- C6: with an odd number of active players and a successful pairing
search, exactly one bye is assigned: the recipient is a bye candidate
(no-bye-yet players when any exist, otherwise all active players) minimal
by (score, OWP, OOWP); the bye match is created already reported with the
recipient as winner; the recipient's stats gain 3 score points, one win,
and the round number in receivedByeInRound; and exactly (n-1)/2 regular
(non-bye, unreported) matches are created. -/
theorem generateNext_bye_round
    (shuffle : List PlayerStats → List PlayerStats) (t : TournamentT)
    (stats : List PlayerStats) (round count : Nat)
    (pairings : List (PlayerStats × PlayerStats))
    (hshuffle : ∀ l, (shuffle l).Perm l)
    (hnd : ((activePlayers stats).map PlayerStats.userId).Nodup)
    (hodd : (activePlayers stats).length % 2 = 1)
    (hsucc : findSwissPairings shuffle (pairingPool stats) t = some pairings) :
    ∃ b,
      byeRecipientThisRound stats = some b ∧
      b ∈ byeCandidates (activePlayers stats) ∧
      (∀ q ∈ byeCandidates (activePlayers stats), byeLe b q) ∧
      (∃ regulars,
        generateNextSwissRoundPairings shuffle t stats round count =
          Except.ok
            (⟨count + 1, round, false, some b.userId, none, some b.userId, false, true⟩
                :: regulars,
              stats.map (applyPairingUpdates (some b) pairings round)) ∧
        regulars.length = ((activePlayers stats).length - 1) / 2 ∧
        ∀ m ∈ regulars, m.player2 ≠ none ∧ m.reported = false) ∧
      ∀ p ∈ stats, p.userId = b.userId →
        applyPairingUpdates (some b) pairings round p =
          { p with score := p.score + 3, wins := p.wins + 1,
                   receivedByeInRound := round } := by
  have hne : activePlayers stats ≠ [] := by
    intro h
    rw [h] at hodd
    simp at hodd
  have hcne : byeCandidates (activePlayers stats) ≠ [] :=
    byeCandidates_ne_nil _ hne
  have hsne : (byeCandidates (activePlayers stats)).insertionSort byeLe ≠ [] := by
    intro h
    have := List.perm_insertionSort byeLe (byeCandidates (activePlayers stats))
    rw [h] at this
    exact hcne this.symm.eq_nil
  rcases hsort : (byeCandidates (activePlayers stats)).insertionSort byeLe with _ | ⟨b, tl⟩
  · exact absurd hsort hsne
  have hhead : ((byeCandidates (activePlayers stats)).insertionSort byeLe).head? = some b := by
    rw [hsort]; rfl
  rcases head_insertionSort_min _ b hhead with ⟨hbmem, hbmin⟩
  have hbr : byeRecipientThisRound stats = some b := by
    unfold byeRecipientThisRound chooseByeRecipient
    rw [if_pos (by omega)]
    exact hhead
  have hbact : b ∈ activePlayers stats := byeCandidates_subset _ hbmem
  have hpool : pairingPool stats
      = (activePlayers stats).filter (fun p => p.userId != b.userId) := by
    unfold pairingPool
    rw [hbr]
  have hpoolperm : (activePlayers stats).Perm (b :: pairingPool stats) := by
    rw [hpool]
    exact perm_cons_filter_ne b (activePlayers stats) hnd hbact
  have hpoolnd : ((pairingPool stats).map PlayerStats.userId).Nodup := by
    have : (b :: pairingPool stats).Nodup → (pairingPool stats).Nodup := fun h =>
      (List.nodup_cons.mp h).2
    have hnd2 : ((b :: pairingPool stats).map PlayerStats.userId).Nodup :=
      ((hpoolperm.map PlayerStats.userId).nodup_iff).mp hnd
    rw [List.map_cons] at hnd2
    exact (List.nodup_cons.mp hnd2).2
  rcases findSwissPairings_spec shuffle (pairingPool stats) t pairings hshuffle
      hpoolnd hsucc with ⟨hperm, hpairs⟩
  have hlenpool : (pairingPool stats).length + 1 = (activePlayers stats).length := by
    have := hpoolperm.length_eq
    simp at this
    omega
  have hlenpairs : 2 * pairings.length = (pairingPool stats).length := by
    have := hperm.length_eq
    rw [pairMembers_length] at this
    omega
  refine ⟨b, hbr, hbmem, hbmin, ?_, ?_⟩
  · refine ⟨pairings.enum.map (fun pr =>
      ⟨count + 1 + pr.1 + 1, round, false,
        some pr.2.1.userId, some pr.2.2.userId, none, false, false⟩), ?_, ?_, ?_⟩
    · unfold generateNextSwissRoundPairings
      rw [hsucc, hbr]
      rfl
    · rw [List.length_map, List.enum_length]
      omega
    · intro m hm
      rcases List.mem_map.mp hm with ⟨pr, _, rfl⟩
      exact ⟨by simp, rfl⟩
  · intro p hp hpuid
    have hnoop := foldl_opponents_noop pairings p (by
      intro pr hprm
      rcases hpairs pr hprm with ⟨_, hm1, hm2⟩
      rw [hpool] at hm1 hm2
      have h1 : pr.1.userId ≠ b.userId := by
        have := (List.mem_filter.mp hm1).2
        simpa using this
      have h2 : pr.2.userId ≠ b.userId := by
        have := (List.mem_filter.mp hm2).2
        simpa using this
      rw [hpuid]
      exact ⟨h1, h2⟩)
    simp only [applyPairingUpdates]
    rw [hnoop, if_pos hpuid.symm]

/-- Witness for C6: five fresh players, round 1; player 1 (worst standing,
first in stable order) receives the bye and two regular matches are
created. -/
theorem generateNext_bye_round_witness :
    ∃ b,
      byeRecipientThisRound
          [mkStats 1 0 [], mkStats 2 0 [], mkStats 3 0 [], mkStats 4 0 [], mkStats 5 0 []]
        = some b ∧
      b ∈ byeCandidates (activePlayers
          [mkStats 1 0 [], mkStats 2 0 [], mkStats 3 0 [], mkStats 4 0 [], mkStats 5 0 []]) ∧
      (∀ q ∈ byeCandidates (activePlayers
          [mkStats 1 0 [], mkStats 2 0 [], mkStats 3 0 [], mkStats 4 0 [], mkStats 5 0 []]),
        byeLe b q) ∧
      (∃ regulars,
        generateNextSwissRoundPairings (fun l => l) t1
            [mkStats 1 0 [], mkStats 2 0 [], mkStats 3 0 [], mkStats 4 0 [], mkStats 5 0 []]
            1 0 =
          Except.ok
            (⟨0 + 1, 1, false, some b.userId, none, some b.userId, false, true⟩
                :: regulars,
              [mkStats 1 0 [], mkStats 2 0 [], mkStats 3 0 [], mkStats 4 0 [],
                mkStats 5 0 []].map
                (applyPairingUpdates (some b)
                  [(mkStats 2 0 [], mkStats 3 0 []), (mkStats 4 0 [], mkStats 5 0 [])] 1)) ∧
        regulars.length = ((activePlayers
            [mkStats 1 0 [], mkStats 2 0 [], mkStats 3 0 [], mkStats 4 0 [],
              mkStats 5 0 []]).length - 1) / 2 ∧
        ∀ m ∈ regulars, m.player2 ≠ none ∧ m.reported = false) ∧
      ∀ p ∈ [mkStats 1 0 [], mkStats 2 0 [], mkStats 3 0 [], mkStats 4 0 [], mkStats 5 0 []],
        p.userId = b.userId →
          applyPairingUpdates (some b)
              [(mkStats 2 0 [], mkStats 3 0 []), (mkStats 4 0 [], mkStats 5 0 [])] 1 p =
            { p with score := p.score + 3, wins := p.wins + 1,
                     receivedByeInRound := 1 } :=
  generateNext_bye_round (fun l => l) t1
    [mkStats 1 0 [], mkStats 2 0 [], mkStats 3 0 [], mkStats 4 0 [], mkStats 5 0 []]
    1 0
    [(mkStats 2 0 [], mkStats 3 0 []), (mkStats 4 0 [], mkStats 5 0 [])]
    (fun l => List.Perm.refl l) (by decide) (by decide)
    (by simp [findSwissPairings, pairingPool, byeRecipientThisRound, activePlayers,
      chooseByeRecipient, byeCandidates, byeLe, byeKey,
      scoreKeys, insertScore, backtrackPairings, tryOpponents,
      opponentsInCurrentPhase, removeBoth, mkStats, t1,
      List.insertionSort, List.orderedInsert])

/-! ## Standings and tiebreakers
(calculateStandings, src/unnamed/part_002 lines 440-579) -/

/-- The playerStatsMap lookup: stats are keyed by userId. -/
def findStat (stats : List PlayerStats) (uid : Nat) : Option PlayerStats :=
  stats.find? (fun s => s.userId == uid)

/-- First-occurrence deduplication of an opponent id list
([...new Set(playerStat.opponents)]). -/
def uniqueIds (l : List Nat) : List Nat :=
  l.foldl (fun acc x => if acc.contains x then acc else acc ++ [x]) []

/-- The OWP contribution loop body and mean of calculateStandings: for
each distinct opponent found in the stats map, the opponent's win rate
excludes their bye win from numerator and denominator, is 0 when they
have no non-bye matches, is capped at 0.75 for a manual drop (inactive
and not phase-1-frozen) and at 1.0 otherwise, and is floored at 0.25;
a player with no opponents gets 0. -/
def computeOWP (allStats : List PlayerStats) (playerStat : PlayerStats) : ℚ :=
  let uniqueOpponentIds := uniqueIds playerStat.opponents
  if uniqueOpponentIds.length = 0 then 0
  else
    let total := uniqueOpponentIds.foldl (fun acc opponentId =>
      match findStat allStats opponentId with
      | some opponentStat =>
          let byes : ℚ := if opponentStat.receivedByeInRound > 0 then 1 else 0
          let matchesPlayed : ℚ :=
            (opponentStat.wins : ℚ) + (opponentStat.losses : ℚ) + (opponentStat.draws : ℚ)
          let actualMatches := matchesPlayed - byes
          let baseWinPerc := if 0 < actualMatches then
              ((opponentStat.wins : ℚ) - byes + (opponentStat.draws : ℚ) * (1/2)) / actualMatches
            else 0
          let finalWinPerc :=
            if opponentStat.activeInTournament = false ∧ opponentStat.tiebreakersFrozen = false
            then min baseWinPerc (3/4)
            else min baseWinPerc 1
          acc + max (1/4) finalWinPerc
      | none => acc) 0
    total / uniqueOpponentIds.length

/-- The OOWP mean: each distinct opponent found in the map contributes
their (already recomputed) OWP. -/
def computeOOWP (allStats : List PlayerStats) (playerStat : PlayerStats) : ℚ :=
  let uniqueOpponentIds := uniqueIds playerStat.opponents
  if uniqueOpponentIds.length = 0 then 0
  else
    let total := uniqueOpponentIds.foldl (fun acc opponentId =>
      match findStat allStats opponentId with
      | some opponentStat => acc + opponentStat.tiebreaker1_OWP
      | none => acc) 0
    total / uniqueOpponentIds.length

/-- The first pass of calculateStandings: frozen tiebreakers are skipped,
everyone else gets a fresh OWP.  The pass reads only fields it never
writes, so reading from the pre-pass list matches the source's in-place
mutation. -/
def computeAllOWP (stats : List PlayerStats) : List PlayerStats :=
  stats.map (fun p =>
    if p.tiebreakersFrozen then p else { p with tiebreaker1_OWP := computeOWP stats p })

/-- The second pass: OOWP from the post-first-pass OWP values. -/
def computeAllOOWP (stats1 : List PlayerStats) : List PlayerStats :=
  stats1.map (fun p =>
    if p.tiebreakersFrozen then p else { p with tiebreaker2_OOWP := computeOOWP stats1 p })

/-- The primary standings sort key, descending by matches played, then
score, then OWP, then OOWP (encoded ascending on negated components). -/
def standingsKey (p : PlayerStats) : Lex (Int × Lex (Int × Lex (ℚ × ℚ))) :=
  toLex (-((p.wins : Int) + (p.losses : Int) + (p.draws : Int)),
    toLex (-p.score, toLex (-p.tiebreaker1_OWP, -p.tiebreaker2_OOWP)))

def standingsLe (a b : PlayerStats) : Prop := standingsKey a ≤ standingsKey b

instance : DecidableRel standingsLe := fun a b => by
  unfold standingsLe
  infer_instance

instance : IsTotal PlayerStats standingsLe :=
  ⟨fun a b => le_total (standingsKey a) (standingsKey b)⟩

instance : IsTrans PlayerStats standingsLe :=
  ⟨fun _ _ _ hab hbc => le_trans hab hbc⟩

/-- The three-component tie test of the run scan (score, OWP, OOWP —
matches played is not part of it). -/
def sameTieKey (p q : PlayerStats) : Bool :=
  (q.score == p.score) && (q.tiebreaker1_OWP == p.tiebreaker1_OWP) &&
    (q.tiebreaker2_OOWP == p.tiebreaker2_OOWP)

/-- The (score, OWP, OOWP) triple of a player. -/
def key3 (p : PlayerStats) : Int × ℚ × ℚ :=
  (p.score, p.tiebreaker1_OWP, p.tiebreaker2_OOWP)

/-- The head-to-head match pool for one tie group: matches whose two
players both belong to the group. -/
def h2hMatches (allMatches : List MatchDoc) (tiedIds : List Nat) : List MatchDoc :=
  allMatches.filter (fun m =>
    match m.player1, m.player2 with
    | some u, some v => tiedIds.contains u && tiedIds.contains v
    | _, _ => false)

/-- One comparator call of the tie-resolution sort: head-to-head wins
decide when the pair met and the win counts differ; otherwise one random
draw is consumed (true places the first player first, the source's
Math.random() - 0.5 < 0). -/
def tieCmp (ms : List MatchDoc) (a b : PlayerStats) (rand : List Bool) :
    Bool × List Bool :=
  let matchesBetweenPair := ms.filter (fun m =>
    (m.player1 == some a.userId && m.player2 == some b.userId) ||
    (m.player1 == some b.userId && m.player2 == some a.userId))
  let aWins := matchesBetweenPair.countP (fun m => m.winnerId == some a.userId)
  let bWins := matchesBetweenPair.countP (fun m => m.winnerId == some b.userId)
  if 0 < matchesBetweenPair.length ∧ aWins ≠ bWins then
    (decide (bWins < aWins), rand)
  else
    match rand with
    | r :: rest => (r, rest)
    | [] => (true, [])

/-- Stable insertion of one player into a sorted tie group, threading the
random stream (the source sorts each group with the comparator above; a
comparison sort is modelled as binary insertion). -/
def insertTied (ms : List MatchDoc) (a : PlayerStats) :
    List PlayerStats → List Bool → (List PlayerStats × List Bool)
  | [], rand => ([a], rand)
  | b :: bs, rand =>
      let step := tieCmp ms a b rand
      if step.1 then (a :: b :: bs, step.2)
      else
        let rec2 := insertTied ms a bs step.2
        (b :: rec2.1, rec2.2)

def sortTied (ms : List MatchDoc) :
    List PlayerStats → List Bool → (List PlayerStats × List Bool)
  | [], rand => ([], rand)
  | a :: as, rand =>
      let rec1 := sortTied ms as rand
      insertTied ms a rec1.1 rec1.2

/-- The run scan of calculateStandings: maximal adjacent runs agreeing
with the run head on (score, OWP, OOWP) are re-sorted by the tie
comparator in place; the fuel argument (list length suffices) only bounds
the recursion. -/
def resolveTiesAux (allMatches : List MatchDoc) :
    Nat → List PlayerStats → List Bool → List PlayerStats
  | 0, l, _ => l
  | _ + 1, [], _ => []
  | fuel + 1, p :: rest, rand =>
      let run := p :: rest.takeWhile (fun q => sameTieKey p q)
      let rest2 := rest.dropWhile (fun q => sameTieKey p q)
      if 1 < run.length then
        let tiedIds := run.map (fun q => q.userId)
        let h2h := h2hMatches allMatches tiedIds
        let sorted := sortTied h2h run rand
        sorted.1 ++ resolveTiesAux allMatches fuel rest2 sorted.2
      else
        p :: resolveTiesAux allMatches fuel rest2 rand

def resolveTies (allMatches : List MatchDoc) (l : List PlayerStats)
    (rand : List Bool) : List PlayerStats :=
  resolveTiesAux allMatches l.length l rand

/-- calculateStandings: OWP pass, OOWP pass, primary four-key sort, then
run-wise tie resolution. -/
def calculateStandings (allMatches : List MatchDoc) (stats : List PlayerStats)
    (rand : List Bool) : List PlayerStats :=
  resolveTies allMatches
    (((computeAllOOWP (computeAllOWP stats))).insertionSort standingsLe) rand

/-- The spec's opponent win rate: wins minus bye wins, plus half a point
per draw, divided by total matches minus bye wins; 0 without non-bye
matches. -/
def opponentWinRate (o : PlayerStats) : ℚ :=
  let byeWins : ℚ := if 0 < o.receivedByeInRound then 1 else 0
  let nonByeMatches : ℚ := ((o.wins : ℚ) + (o.losses : ℚ) + (o.draws : ℚ)) - byeWins
  if 0 < nonByeMatches then (((o.wins : ℚ) - byeWins) + (o.draws : ℚ) / 2) / nonByeMatches
  else 0

/-- The spec's cap: 0.75 for a drop that is not a phase-1-frozen drop,
1.0 otherwise. -/
def cappedWinRate (o : PlayerStats) : ℚ :=
  if o.activeInTournament = false ∧ o.tiebreakersFrozen = false
  then min (opponentWinRate o) (3/4)
  else min (opponentWinRate o) 1

/-- One distinct opponent's contribution to the OWP mean per the spec:
max(0.25, capped rate). -/
def specOWPContribution (stats : List PlayerStats) (oid : Nat) : ℚ :=
  match findStat stats oid with
  | some o => max (1/4) (cappedWinRate o)
  | none => 0

theorem foldl_add_body_eq_sum (g : Nat → ℚ) :
    ∀ (ids : List Nat) (body : ℚ → Nat → ℚ) (acc : ℚ),
      (∀ a oid, oid ∈ ids → body a oid = a + g oid) →
      ids.foldl body acc = acc + (ids.map g).sum := by
  intro ids
  induction ids with
  | nil => intro body acc _; simp
  | cons x xs ih =>
      intro body acc h
      rw [List.foldl_cons, h acc x (List.mem_cons_self x xs), List.map_cons,
        List.sum_cons, ih body _ (fun a oid ho => h a oid (List.mem_cons_of_mem _ ho))]
      ring

/-- C3: for an unfrozen player whose distinct opponents all resolve in
the stats map, the recomputed OWP is the mean over distinct opponents of
max(0.25, capped win rate) exactly as the spec words it, and 0 with no
opponents; the first standings pass stores that value on the player. -/
theorem computeOWP_is_mean_of_capped_rates (stats : List PlayerStats)
    (p : PlayerStats) (hp : p ∈ stats) (hfr : p.tiebreakersFrozen = false)
    (hres : ∀ oid ∈ uniqueIds p.opponents, (findStat stats oid).isSome) :
    { p with tiebreaker1_OWP := computeOWP stats p } ∈ computeAllOWP stats ∧
    (uniqueIds p.opponents = [] → computeOWP stats p = 0) ∧
    (uniqueIds p.opponents ≠ [] →
      computeOWP stats p
        = ((uniqueIds p.opponents).map (specOWPContribution stats)).sum
            / (uniqueIds p.opponents).length) := by
  refine ⟨?_, ?_, ?_⟩
  · have hmem := List.mem_map_of_mem
      (fun q => if q.tiebreakersFrozen then q
        else { q with tiebreaker1_OWP := computeOWP stats q }) hp
    simp only [hfr, Bool.false_eq_true, if_false] at hmem
    rw [hfr]
    exact hmem
  · intro hnil
    unfold computeOWP
    rw [hnil]
    rfl
  · intro hne
    unfold computeOWP
    rw [if_neg (fun h => hne (List.length_eq_zero.mp h))]
    have hfold := foldl_add_body_eq_sum (specOWPContribution stats)
      (uniqueIds p.opponents)
      (fun acc opponentId =>
        match findStat stats opponentId with
        | some opponentStat =>
            let byes : ℚ := if opponentStat.receivedByeInRound > 0 then 1 else 0
            let matchesPlayed : ℚ :=
              (opponentStat.wins : ℚ) + (opponentStat.losses : ℚ) + (opponentStat.draws : ℚ)
            let actualMatches := matchesPlayed - byes
            let baseWinPerc := if 0 < actualMatches then
                ((opponentStat.wins : ℚ) - byes + (opponentStat.draws : ℚ) * (1/2))
                  / actualMatches
              else 0
            let finalWinPerc :=
              if opponentStat.activeInTournament = false ∧
                  opponentStat.tiebreakersFrozen = false
              then min baseWinPerc (3/4)
              else min baseWinPerc 1
            acc + max (1/4) finalWinPerc
        | none => acc)
      0 ?_
    · rw [hfold, zero_add]
    · intro a oid ho
      rcases hsome : findStat stats oid with _ | o
      · have hs := hres oid ho
        rw [hsome] at hs
        simp at hs
      · simp only [hsome, specOWPContribution]
        congr 1
        unfold cappedWinRate opponentWinRate
        have harith : ∀ w byes d am : ℚ,
            (w - byes + d * (1/2)) / am = ((w - byes) + d / 2) / am := by
          intro w byes d am
          ring_nf
        rw [harith]

/-- Witness for C3: a player with two distinct opponents, one of whom won
a bye, at a fully concrete stats list. -/
theorem computeOWP_is_mean_of_capped_rates_witness :
    { (⟨1, 3, 1, 1, 0, [2, 3], [], [], 0, 0, 0, true, false⟩ : PlayerStats) with
        tiebreaker1_OWP := computeOWP
          [⟨1, 3, 1, 1, 0, [2, 3], [], [], 0, 0, 0, true, false⟩,
           ⟨2, 3, 1, 1, 0, [1], [], [], 0, 0, 0, true, false⟩,
           ⟨3, 6, 2, 0, 0, [1], [], [], 0, 0, 1, true, false⟩]
          ⟨1, 3, 1, 1, 0, [2, 3], [], [], 0, 0, 0, true, false⟩ } ∈
      computeAllOWP
        [⟨1, 3, 1, 1, 0, [2, 3], [], [], 0, 0, 0, true, false⟩,
         ⟨2, 3, 1, 1, 0, [1], [], [], 0, 0, 0, true, false⟩,
         ⟨3, 6, 2, 0, 0, [1], [], [], 0, 0, 1, true, false⟩] ∧
    (uniqueIds (⟨1, 3, 1, 1, 0, [2, 3], [], [], 0, 0, 0, true, false⟩ : PlayerStats).opponents
        = [] →
      computeOWP
        [⟨1, 3, 1, 1, 0, [2, 3], [], [], 0, 0, 0, true, false⟩,
         ⟨2, 3, 1, 1, 0, [1], [], [], 0, 0, 0, true, false⟩,
         ⟨3, 6, 2, 0, 0, [1], [], [], 0, 0, 1, true, false⟩]
        ⟨1, 3, 1, 1, 0, [2, 3], [], [], 0, 0, 0, true, false⟩ = 0) ∧
    (uniqueIds (⟨1, 3, 1, 1, 0, [2, 3], [], [], 0, 0, 0, true, false⟩ : PlayerStats).opponents
        ≠ [] →
      computeOWP
        [⟨1, 3, 1, 1, 0, [2, 3], [], [], 0, 0, 0, true, false⟩,
         ⟨2, 3, 1, 1, 0, [1], [], [], 0, 0, 0, true, false⟩,
         ⟨3, 6, 2, 0, 0, [1], [], [], 0, 0, 1, true, false⟩]
        ⟨1, 3, 1, 1, 0, [2, 3], [], [], 0, 0, 0, true, false⟩
        = ((uniqueIds
              (⟨1, 3, 1, 1, 0, [2, 3], [], [], 0, 0, 0, true, false⟩ : PlayerStats).opponents).map
            (specOWPContribution
              [⟨1, 3, 1, 1, 0, [2, 3], [], [], 0, 0, 0, true, false⟩,
               ⟨2, 3, 1, 1, 0, [1], [], [], 0, 0, 0, true, false⟩,
               ⟨3, 6, 2, 0, 0, [1], [], [], 0, 0, 1, true, false⟩])).sum
            / (uniqueIds
                (⟨1, 3, 1, 1, 0, [2, 3], [], [], 0, 0, 0, true, false⟩ : PlayerStats).opponents).length) :=
  computeOWP_is_mean_of_capped_rates
    [⟨1, 3, 1, 1, 0, [2, 3], [], [], 0, 0, 0, true, false⟩,
     ⟨2, 3, 1, 1, 0, [1], [], [], 0, 0, 0, true, false⟩,
     ⟨3, 6, 2, 0, 0, [1], [], [], 0, 0, 1, true, false⟩]
    ⟨1, 3, 1, 1, 0, [2, 3], [], [], 0, 0, 0, true, false⟩
    (by decide) rfl (by decide)

theorem insertTied_perm (ms : List MatchDoc) (a : PlayerStats) :
    ∀ (l : List PlayerStats) (rand : List Bool),
      (insertTied ms a l rand).1.Perm (a :: l) := by
  intro l
  induction l with
  | nil => intro rand; simp [insertTied]
  | cons b bs ih =>
      intro rand
      simp only [insertTied]
      rcases h : (tieCmp ms a b rand).1 with _ | _
      · simp only [Bool.false_eq_true, if_false]
        exact (List.Perm.cons b (ih _)).trans (List.Perm.swap _ _ _)
      · simp only [if_true]
        exact List.Perm.refl _

theorem sortTied_perm (ms : List MatchDoc) :
    ∀ (l : List PlayerStats) (rand : List Bool),
      (sortTied ms l rand).1.Perm l := by
  intro l
  induction l with
  | nil => intro rand; simp [sortTied]
  | cons a as ih =>
      intro rand
      simp only [sortTied]
      exact (insertTied_perm ms a _ _).trans (List.Perm.cons a (ih _))

theorem map_key3_replicate (l : List PlayerStats) (k : Int × ℚ × ℚ)
    (h : ∀ x ∈ l, key3 x = k) :
    l.map key3 = List.replicate l.length k := by
  induction l with
  | nil => rfl
  | cons x xs ih =>
      rw [List.map_cons, h x (List.mem_cons_self x xs), List.length_cons,
        List.replicate_succ, ih (fun y hy => h y (List.mem_cons_of_mem _ hy))]

theorem sameTieKey_iff (p q : PlayerStats) :
    sameTieKey p q = true ↔ key3 q = key3 p := by
  simp [sameTieKey, key3, Prod.ext_iff, and_assoc]

/-- Tie resolution permutes the list and only moves players inside runs
of equal (score, OWP, OOWP): the sequence of key3 triples is untouched. -/
theorem resolveTiesAux_spec (ms : List MatchDoc) :
    ∀ (fuel : Nat) (l : List PlayerStats) (rand : List Bool), l.length ≤ fuel →
      (resolveTiesAux ms fuel l rand).Perm l ∧
      (resolveTiesAux ms fuel l rand).map key3 = l.map key3 := by
  intro fuel
  induction fuel with
  | zero =>
      intro l rand hlen
      have : l = [] := List.length_eq_zero.mp (Nat.le_zero.mp hlen)
      subst this
      exact ⟨List.Perm.refl _, rfl⟩
  | succ fuel ih =>
      intro l rand hlen
      match l with
      | [] => exact ⟨List.Perm.refl _, rfl⟩
      | p :: rest =>
          have hsplit : rest.takeWhile (fun q => sameTieKey p q)
              ++ rest.dropWhile (fun q => sameTieKey p q) = rest :=
            List.takeWhile_append_dropWhile _ _
          have hlen2 : (rest.dropWhile (fun q => sameTieKey p q)).length ≤ fuel := by
            have hsl : (rest.dropWhile (fun q => sameTieKey p q)).length ≤ rest.length := by
              have h2 : (rest.takeWhile (fun q => sameTieKey p q)).length
                  + (rest.dropWhile (fun q => sameTieKey p q)).length = rest.length := by
                rw [← List.length_append, hsplit]
              omega
            simp only [List.length_cons] at hlen
            omega
          simp only [resolveTiesAux]
          by_cases hrun : 1 < (p :: rest.takeWhile (fun q => sameTieKey p q)).length
          · rw [if_pos hrun]
            rcases ih (rest.dropWhile (fun q => sameTieKey p q)) _ hlen2 with ⟨hperm2, hmap2⟩
            have hsortperm := sortTied_perm
              (h2hMatches ms ((p :: rest.takeWhile (fun q => sameTieKey p q)).map
                (fun q => q.userId)))
              (p :: rest.takeWhile (fun q => sameTieKey p q)) rand
            constructor
            · refine (List.Perm.append hsortperm hperm2).trans ?_
              have : (p :: rest.takeWhile (fun q => sameTieKey p q))
                  ++ rest.dropWhile (fun q => sameTieKey p q) = p :: rest := by
                rw [List.cons_append, hsplit]
              rw [this]
            · have hallkey : ∀ x ∈ p :: rest.takeWhile (fun q => sameTieKey p q),
                  key3 x = key3 p := by
                intro x hx
                rcases List.mem_cons.mp hx with rfl | hx2
                · rfl
                · exact (sameTieKey_iff p x).mp (List.mem_takeWhile_imp hx2)
              have hallkey2 : ∀ x ∈ (sortTied
                  (h2hMatches ms ((p :: rest.takeWhile (fun q => sameTieKey p q)).map
                    (fun q => q.userId)))
                  (p :: rest.takeWhile (fun q => sameTieKey p q)) rand).1,
                  key3 x = key3 p :=
                fun x hx => hallkey x (hsortperm.mem_iff.mp hx)
              rw [List.map_append, hmap2, map_key3_replicate _ _ hallkey2,
                hsortperm.length_eq, ← map_key3_replicate _ _ hallkey,
                ← List.map_append, List.cons_append, hsplit]
          · rw [if_neg hrun]
            have htw : rest.takeWhile (fun q => sameTieKey p q) = [] := by
              rcases h : rest.takeWhile (fun q => sameTieKey p q) with _ | ⟨x, xs⟩
              · rfl
              · rw [h] at hrun
                simp at hrun
            have hdw : rest.dropWhile (fun q => sameTieKey p q) = rest := by
              rw [htw] at hsplit
              simpa using hsplit
            rcases ih (rest.dropWhile (fun q => sameTieKey p q)) rand hlen2 with ⟨hperm2, hmap2⟩
            rw [hdw] at hperm2 hmap2 ⊢
            exact ⟨List.Perm.cons p hperm2, by rw [List.map_cons, hmap2, List.map_cons]⟩

/-- C2 (amended): calculateStandings first sorts descending by (matches
played, score, OWP, OOWP); tie resolution then permutes players only
inside maximal adjacent runs agreeing on (score, OWP, OOWP) — matches
played is not part of the run test — so the output is a permutation of
the four-key sort that preserves its sequence of (score, OWP, OOWP)
triples, but players differing only in matches played can be reordered
by the head-to-head/random resolution (see the counterexample). -/
theorem calculateStandings_run_resolution (ms : List MatchDoc)
    (stats : List PlayerStats) (rand : List Bool) :
    (calculateStandings ms stats rand).Perm
      ((computeAllOOWP (computeAllOWP stats)).insertionSort standingsLe) ∧
    (calculateStandings ms stats rand).map key3
      = ((computeAllOOWP (computeAllOWP stats)).insertionSort standingsLe).map key3 ∧
    List.Sorted standingsLe
      ((computeAllOOWP (computeAllOWP stats)).insertionSort standingsLe) ∧
    ((computeAllOOWP (computeAllOWP stats)).insertionSort standingsLe).Perm
      (computeAllOOWP (computeAllOWP stats)) := by
  rcases resolveTiesAux_spec ms
      ((computeAllOOWP (computeAllOWP stats)).insertionSort standingsLe).length
      ((computeAllOOWP (computeAllOWP stats)).insertionSort standingsLe) rand
      (le_refl _) with ⟨h1, h2⟩
  exact ⟨h1, h2, List.sorted_insertionSort standingsLe _,
    List.perm_insertionSort standingsLe _⟩

/-- Counterexample to C2 as stated: players 1 and 2 are tied on (score,
OWP, OOWP) but have played 1 and 2 matches respectively; the run test
ignores matches played, so the random fallback can place player 1 (fewer
matches) above player 2, violating the claimed descending-by-matches
order outside an all-four-criteria tie. -/
theorem calculateStandings_reorders_across_match_counts :
    calculateStandings
      [⟨1, 1, false, some 1, some 3, some 1, false, true⟩,
       ⟨2, 1, false, some 2, some 3, some 2, false, true⟩,
       ⟨3, 2, false, some 2, some 3, some 3, false, true⟩]
      [⟨1, 3, 1, 0, 0, [3], [], [], 0, 0, 0, true, false⟩,
       ⟨2, 3, 1, 1, 0, [3], [], [], 0, 0, 0, true, false⟩,
       ⟨3, 3, 1, 2, 0, [1, 2], [], [], 0, 0, 0, true, false⟩]
      [false]
    = [⟨3, 3, 1, 2, 0, [1, 2], [], [], 3/4, 1/3, 0, true, false⟩,
       ⟨1, 3, 1, 0, 0, [3], [], [], 1/3, 3/4, 0, true, false⟩,
       ⟨2, 3, 1, 1, 0, [3], [], [], 1/3, 3/4, 0, true, false⟩] ∧
    ((⟨1, 3, 1, 0, 0, [3], [], [], 1/3, 3/4, 0, true, false⟩ : PlayerStats).wins
      + (⟨1, 3, 1, 0, 0, [3], [], [], 1/3, 3/4, 0, true, false⟩ : PlayerStats).losses
      + (⟨1, 3, 1, 0, 0, [3], [], [], 1/3, 3/4, 0, true, false⟩ : PlayerStats).draws
      < (⟨2, 3, 1, 1, 0, [3], [], [], 1/3, 3/4, 0, true, false⟩ : PlayerStats).wins
      + (⟨2, 3, 1, 1, 0, [3], [], [], 1/3, 3/4, 0, true, false⟩ : PlayerStats).losses
      + (⟨2, 3, 1, 1, 0, [3], [], [], 1/3, 3/4, 0, true, false⟩ : PlayerStats).draws) := by
  constructor
  · norm_num [calculateStandings, computeAllOWP, computeAllOOWP, computeOWP, computeOOWP,
      uniqueIds, findStat, resolveTies, resolveTiesAux, sameTieKey, h2hMatches,
      sortTied, insertTied, tieCmp, standingsLe, standingsKey, key3,
      List.insertionSort, List.orderedInsert, Prod.Lex.le_iff, List.cons_ne_nil]
  · decide

/-! ## Prize distribution
(PRIZE_PROPORTIONS and finishTournament, src/unnamed/part_002 lines
1073-1204) -/

/-- The slice of a final-standings row the prize loop reads. -/
structure RankedPlayer where
  userId : Nat
  score : Int
  finalRank : Nat
deriving Repr, DecidableEq

/-- A rank range key of a proportion table: a single rank or a dashed
band. -/
inductive RankBand where
  | single (r : Nat)
  | band (lo hi : Nat)
deriving Repr, DecidableEq

/-- PRIZE_PROPORTIONS, in the source's iteration order (numeric keys
ascending, then the dashed bands in insertion order). -/
def top4_no_cut : List (RankBand × ℚ) :=
  [(RankBand.single 1, 50/100), (RankBand.single 2, 25/100),
   (RankBand.single 3, 125/1000), (RankBand.single 4, 125/1000)]

def top4_cut : List (RankBand × ℚ) := top4_no_cut

def top8_cut : List (RankBand × ℚ) :=
  [(RankBand.single 1, 40/100), (RankBand.single 2, 20/100),
   (RankBand.band 3 4, 10/100), (RankBand.band 5 8, 5/100)]

def top16_cut : List (RankBand × ℚ) :=
  [(RankBand.single 1, 35/100), (RankBand.single 2, 18/100),
   (RankBand.band 3 4, 85/1000), (RankBand.band 5 8, 4/100),
   (RankBand.band 9 16, 2/100)]

def top32_cut : List (RankBand × ℚ) :=
  [(RankBand.single 1, 30/100), (RankBand.single 2, 15/100),
   (RankBand.band 3 4, 75/1000), (RankBand.band 5 8, 3/100),
   (RankBand.band 9 16, 15/1000), (RankBand.band 17 32, 75/10000)]

structure PrizeAward where
  userId : Nat
  amount : Int
  finalRank : Nat
deriving Repr, DecidableEq

/-- The players whose finalRank falls in a band. -/
def playersInBand (standings : List RankedPlayer) : RankBand → List RankedPlayer
  | RankBand.single r => standings.filter (fun p => p.finalRank == r)
  | RankBand.band lo hi => standings.filter (fun p => lo ≤ p.finalRank && p.finalRank ≤ hi)

/-- One iteration of the prize loop: floor the band's share of the pool,
skip non-positive shares, divide evenly (floor) among the occupants, and
skip zero per-player amounts. -/
def bandRecords (pool : Nat) (standings : List RankedPlayer)
    (bandProp : RankBand × ℚ) : List PrizeAward :=
  let prizeForRankRange : Int := Int.floor ((pool : ℚ) * bandProp.2)
  if prizeForRankRange ≤ 0 then []
  else
    let inBand := playersInBand standings bandProp.1
    if inBand.length = 0 then []
    else
      let prizePerPlayer : Int := Int.floor ((prizeForRankRange : ℚ) / (inBand.length : ℚ))
      if prizePerPlayer ≤ 0 then []
      else inBand.map (fun p => ⟨p.userId, prizePerPlayer, p.finalRank⟩)

/-- The loop only ever appends each band's independently computed awards,
so it is the concatenation over the table. -/
def pendingPrizeAwards (pool : Nat) (standings : List RankedPlayer)
    (table : List (RankBand × ℚ)) : List PrizeAward :=
  table.flatMap (bandRecords pool standings)

def totalAuraDistributed (pool : Nat) (standings : List RankedPlayer)
    (table : List (RankBand × ℚ)) : Int :=
  ((pendingPrizeAwards pool standings table).map (fun a => a.amount)).sum

/-- The remainder is credited to the first rank-1 award. -/
def bumpFirstRank1 (amount : Int) : List PrizeAward → List PrizeAward
  | [] => []
  | a :: as =>
      if a.finalRank == 1 then { a with amount := a.amount + amount } :: as
      else a :: bumpFirstRank1 amount as

/-- The spread branch of finishTournament: band awards, then the whole
positive remainder to rank 1 (onto their existing award, or as a fresh
award when none exists). -/
def spreadAwards (pool : Nat) (standings : List RankedPlayer)
    (table : List (RankBand × ℚ)) : List PrizeAward :=
  let pending := pendingPrizeAwards pool standings table
  let remainder : Int := (pool : Int) - totalAuraDistributed pool standings table
  if 0 < remainder then
    if pending.any (fun a => a.finalRank == 1) then bumpFirstRank1 remainder pending
    else
      match standings.find? (fun p => p.finalRank == 1) with
      | some w => pending ++ [⟨w.userId, remainder, 1⟩]
      | none => pending
  else pending

/-- The while loop computing the largest power of two not exceeding the
qualifier count (fuel bounds the doubling). -/
def prizeBracketAux : Nat → Nat → Nat → Nat
  | 0, b, _ => b
  | fuel + 1, b, n => if b * 2 ≤ n then prizeBracketAux fuel (b * 2) n else b

def prizeBracket (numQualified : Nat) : Nat :=
  prizeBracketAux numQualified 1 numQualified

/-- The proportions table keyed by the prize bracket. -/
def proportionsFor (bracket : Nat) : List (RankBand × ℚ) :=
  if 32 ≤ bracket then top32_cut
  else if 16 ≤ bracket then top16_cut
  else if 8 ≤ bracket then top8_cut
  else if 4 ≤ bracket then top4_cut
  else top4_no_cut

/-- The qualifier count: players at or above the points threshold for a
points cut, the configured top-cut size otherwise. -/
def numQualifiedFor (cutIsPoints : Bool) (pointsRequired : Int)
    (topCutSize : Nat) (standings : List RankedPlayer) : Nat :=
  if cutIsPoints then (standings.filter (fun p => pointsRequired ≤ p.score)).length
  else topCutSize

/-- The full spread prize computation for a given qualifier count. -/
def spreadPrizeDistribution (pool : Nat) (standings : List RankedPlayer)
    (numQualified : Nat) : List PrizeAward :=
  spreadAwards pool standings (proportionsFor (prizeBracket numQualified))

/-- Everything a user receives across the award list. -/
def awardTotalFor (awards : List PrizeAward) (uid : Nat) : Int :=
  ((awards.filter (fun a => a.userId == uid)).map (fun a => a.amount)).sum

def awardsSum (awards : List PrizeAward) : Int :=
  (awards.map (fun a => a.amount)).sum

theorem awardTotalFor_append (x y : List PrizeAward) (u : Nat) :
    awardTotalFor (x ++ y) u = awardTotalFor x u + awardTotalFor y u := by
  simp [awardTotalFor, List.filter_append]

theorem awardsSum_append (x y : List PrizeAward) :
    awardsSum (x ++ y) = awardsSum x + awardsSum y := by
  simp [awardsSum]

/-- floor(P*0.40): the rank-1 band amount. -/
def v40 (P : Nat) : Int := Int.floor ((P : ℚ) * (40/100))

/-- floor(P*0.20): the rank-2 band amount. -/
def v20 (P : Nat) : Int := Int.floor ((P : ℚ) * (20/100))

/-- floor(P*0.10): the ranks-3-4 band total. -/
def f10 (P : Nat) : Int := Int.floor ((P : ℚ) * (10/100))

/-- floor(floor(P*0.10)/2): each of ranks 3-4. -/
def w34 (P : Nat) : Int := Int.floor ((f10 P : ℚ) / 2)

/-- floor(P*0.05): the ranks-5-8 band total. -/
def f05 (P : Nat) : Int := Int.floor ((P : ℚ) * (5/100))

/-- floor(floor(P*0.05)/4): each of ranks 5-8. -/
def w58 (P : Nat) : Int := Int.floor ((f05 P : ℚ) / 4)

/-- The sum the claim predicts the four top-8 bands to distribute before
the remainder is folded back. -/
def top8BandSum (P : Nat) : Int :=
  v40 P + v20 P + 2 * w34 P + 4 * w58 P

theorem floor_half_nonpos (x : Int) (h : x ≤ 0) (n : ℚ) (hn : 0 < n) :
    Int.floor ((x : ℚ) / n) ≤ 0 := by
  have hx : (x : ℚ) / n ≤ 0 :=
    div_nonpos_iff.mpr (Or.inr ⟨by exact_mod_cast h, le_of_lt hn⟩)
  calc Int.floor ((x : ℚ) / n) ≤ Int.floor (0 : ℚ) := Int.floor_le_floor hx
    _ = 0 := Int.floor_zero

theorem v40_nonneg (P : Nat) : 0 ≤ v40 P :=
  Int.floor_nonneg.mpr (by positivity)

theorem v20_nonneg (P : Nat) : 0 ≤ v20 P :=
  Int.floor_nonneg.mpr (by positivity)

theorem f10_nonneg (P : Nat) : 0 ≤ f10 P :=
  Int.floor_nonneg.mpr (by positivity)

theorem f05_nonneg (P : Nat) : 0 ≤ f05 P :=
  Int.floor_nonneg.mpr (by positivity)

theorem w34_nonneg (P : Nat) : 0 ≤ w34 P :=
  Int.floor_nonneg.mpr (div_nonneg (by exact_mod_cast f10_nonneg P) (by norm_num))

theorem w58_nonneg (P : Nat) : 0 ≤ w58 P :=
  Int.floor_nonneg.mpr (div_nonneg (by exact_mod_cast f05_nonneg P) (by norm_num))

/-- The four band amounts together never exceed the pool (the proportions
sum to 0.75). -/
theorem top8BandSum_le_pool (P : Nat) : top8BandSum P ≤ (P : Int) := by
  have h40 : (v40 P : ℚ) ≤ (P : ℚ) * (40/100) := Int.floor_le _
  have h20 : (v20 P : ℚ) ≤ (P : ℚ) * (20/100) := Int.floor_le _
  have h10 : (f10 P : ℚ) ≤ (P : ℚ) * (10/100) := Int.floor_le _
  have h05 : (f05 P : ℚ) ≤ (P : ℚ) * (5/100) := Int.floor_le _
  have h34 : (w34 P : ℚ) ≤ (f10 P : ℚ) / 2 := Int.floor_le _
  have h58 : (w58 P : ℚ) ≤ (f05 P : ℚ) / 4 := Int.floor_le _
  have hq : (top8BandSum P : ℚ) ≤ (P : ℚ) := by
    have : (top8BandSum P : ℚ)
        = (v40 P : ℚ) + (v20 P : ℚ) + 2 * (w34 P : ℚ) + 4 * (w58 P : ℚ) := by
      unfold top8BandSum
      push_cast
      ring
    rw [this]
    nlinarith [Nat.cast_nonneg (α := ℚ) P]
  exact_mod_cast hq

/-- The band awards for a standing list with exactly one player per rank
1..8 and everyone else below rank 8. -/
theorem pendingPrizeAwards_top8 (P : Nat)
    (q1 q2 q3 q4 q5 q6 q7 q8 : RankedPlayer) (rest : List RankedPlayer)
    (hr1 : q1.finalRank = 1) (hr2 : q2.finalRank = 2) (hr3 : q3.finalRank = 3)
    (hr4 : q4.finalRank = 4) (hr5 : q5.finalRank = 5) (hr6 : q6.finalRank = 6)
    (hr7 : q7.finalRank = 7) (hr8 : q8.finalRank = 8)
    (hrest : ∀ p ∈ rest, 8 < p.finalRank) :
    pendingPrizeAwards P (q1 :: q2 :: q3 :: q4 :: q5 :: q6 :: q7 :: q8 :: rest) top8_cut
      = (if v40 P ≤ 0 then [] else [⟨q1.userId, v40 P, 1⟩])
        ++ ((if v20 P ≤ 0 then [] else [⟨q2.userId, v20 P, 2⟩])
        ++ ((if w34 P ≤ 0 then [] else [⟨q3.userId, w34 P, 3⟩, ⟨q4.userId, w34 P, 4⟩])
        ++ (if w58 P ≤ 0 then []
            else [⟨q5.userId, w58 P, 5⟩, ⟨q6.userId, w58 P, 6⟩,
                  ⟨q7.userId, w58 P, 7⟩, ⟨q8.userId, w58 P, 8⟩]))) := by
  have hrestfilter : ∀ r : Nat, r ≤ 8 →
      rest.filter (fun p => p.finalRank == r) = [] := by
    intro r hr
    rw [List.filter_eq_nil]
    intro p hp
    have := hrest p hp
    simp only [beq_iff_eq]
    omega
  have hrestband : ∀ lo hi : Nat, hi ≤ 8 →
      rest.filter (fun p => lo ≤ p.finalRank && p.finalRank ≤ hi) = [] := by
    intro lo hi hhi
    rw [List.filter_eq_nil]
    intro p hp
    have := hrest p hp
    simp only [Bool.and_eq_true, decide_eq_true_eq, not_and]
    omega
  have hband1 : playersInBand (q1 :: q2 :: q3 :: q4 :: q5 :: q6 :: q7 :: q8 :: rest)
      (RankBand.single 1) = [q1] := by
    simp [playersInBand, List.filter_cons, hr1, hr2, hr3, hr4, hr5, hr6, hr7, hr8,
      hrestfilter 1 (by norm_num)]
  have hband2 : playersInBand (q1 :: q2 :: q3 :: q4 :: q5 :: q6 :: q7 :: q8 :: rest)
      (RankBand.single 2) = [q2] := by
    simp [playersInBand, List.filter_cons, hr1, hr2, hr3, hr4, hr5, hr6, hr7, hr8,
      hrestfilter 2 (by norm_num)]
  have hband34 : playersInBand (q1 :: q2 :: q3 :: q4 :: q5 :: q6 :: q7 :: q8 :: rest)
      (RankBand.band 3 4) = [q3, q4] := by
    simp [playersInBand, List.filter_cons, hr1, hr2, hr3, hr4, hr5, hr6, hr7, hr8,
      hrestband 3 4 (by norm_num)]
  have hband58 : playersInBand (q1 :: q2 :: q3 :: q4 :: q5 :: q6 :: q7 :: q8 :: rest)
      (RankBand.band 5 8) = [q5, q6, q7, q8] := by
    simp [playersInBand, List.filter_cons, hr1, hr2, hr3, hr4, hr5, hr6, hr7, hr8,
      hrestband 5 8 (by norm_num)]
  have hv40 : Int.floor ((P : ℚ) * (40/100)) = v40 P := rfl
  have hv20 : Int.floor ((P : ℚ) * (20/100)) = v20 P := rfl
  have hf10 : Int.floor ((P : ℚ) * (10/100)) = f10 P := rfl
  have hf05 : Int.floor ((P : ℚ) * (5/100)) = f05 P := rfl
  have hrec1 : bandRecords P (q1 :: q2 :: q3 :: q4 :: q5 :: q6 :: q7 :: q8 :: rest)
      (RankBand.single 1, 40/100)
      = if v40 P ≤ 0 then [] else [⟨q1.userId, v40 P, 1⟩] := by
    by_cases hc : v40 P ≤ 0
    · rw [if_pos hc]
      simp only [bandRecords, hv40]
      rw [if_pos hc]
    · rw [if_neg hc]
      simp only [bandRecords, hv40]
      rw [if_neg hc, hband1]
      simp only [List.length_cons, List.length_nil, Nat.zero_add]
      rw [if_neg (by norm_num)]
      have hper : Int.floor ((v40 P : ℚ) / ((1 : Nat) : ℚ)) = v40 P := by
        norm_num
      rw [hper, if_neg hc]
      simp [hr1]
  have hrec2 : bandRecords P (q1 :: q2 :: q3 :: q4 :: q5 :: q6 :: q7 :: q8 :: rest)
      (RankBand.single 2, 20/100)
      = if v20 P ≤ 0 then [] else [⟨q2.userId, v20 P, 2⟩] := by
    by_cases hc : v20 P ≤ 0
    · rw [if_pos hc]
      simp only [bandRecords, hv20]
      rw [if_pos hc]
    · rw [if_neg hc]
      simp only [bandRecords, hv20]
      rw [if_neg hc, hband2]
      simp only [List.length_cons, List.length_nil, Nat.zero_add]
      rw [if_neg (by norm_num)]
      have hper : Int.floor ((v20 P : ℚ) / ((1 : Nat) : ℚ)) = v20 P := by
        norm_num
      rw [hper, if_neg hc]
      simp [hr2]
  have hrec34 : bandRecords P (q1 :: q2 :: q3 :: q4 :: q5 :: q6 :: q7 :: q8 :: rest)
      (RankBand.band 3 4, 10/100)
      = if w34 P ≤ 0 then [] else [⟨q3.userId, w34 P, 3⟩, ⟨q4.userId, w34 P, 4⟩] := by
    by_cases hf : f10 P ≤ 0
    · have hw : w34 P ≤ 0 := floor_half_nonpos _ hf 2 (by norm_num)
      rw [if_pos hw]
      simp only [bandRecords, hf10]
      rw [if_pos hf]
    · simp only [bandRecords, hf10]
      rw [if_neg hf, hband34]
      simp only [List.length_cons, List.length_nil, Nat.zero_add]
      rw [if_neg (by norm_num)]
      have hper : Int.floor ((f10 P : ℚ) / ((2 : Nat) : ℚ)) = w34 P := by
        norm_num [w34]
      rw [hper]
      by_cases hw : w34 P ≤ 0
      · rw [if_pos hw, if_pos hw]
      · rw [if_neg hw, if_neg hw]
        simp [hr3, hr4]
  have hrec58 : bandRecords P (q1 :: q2 :: q3 :: q4 :: q5 :: q6 :: q7 :: q8 :: rest)
      (RankBand.band 5 8, 5/100)
      = if w58 P ≤ 0 then []
        else [⟨q5.userId, w58 P, 5⟩, ⟨q6.userId, w58 P, 6⟩,
              ⟨q7.userId, w58 P, 7⟩, ⟨q8.userId, w58 P, 8⟩] := by
    by_cases hf : f05 P ≤ 0
    · have hw : w58 P ≤ 0 := floor_half_nonpos _ hf 4 (by norm_num)
      rw [if_pos hw]
      simp only [bandRecords, hf05]
      rw [if_pos hf]
    · simp only [bandRecords, hf05]
      rw [if_neg hf, hband58]
      simp only [List.length_cons, List.length_nil, Nat.zero_add]
      rw [if_neg (by norm_num)]
      have hper : Int.floor ((f05 P : ℚ) / ((4 : Nat) : ℚ)) = w58 P := by
        norm_num [w58]
      rw [hper]
      by_cases hw : w58 P ≤ 0
      · rw [if_pos hw, if_pos hw]
      · rw [if_neg hw, if_neg hw]
        simp [hr5, hr6, hr7, hr8]
  simp only [pendingPrizeAwards, top8_cut, List.flatMap_cons, List.flatMap_nil,
    hrec1, hrec2, hrec34, hrec58, List.append_nil]

theorem awardTotalFor_nil_eq (u : Nat) : awardTotalFor [] u = 0 := rfl

theorem awardsSum_nil_eq : awardsSum [] = 0 := rfl

theorem awardsSum_cons_eq (a : PrizeAward) (as : List PrizeAward) :
    awardsSum (a :: as) = a.amount + awardsSum as := by
  simp [awardsSum]

theorem awardTotalFor_cons (a : PrizeAward) (as : List PrizeAward) (u : Nat) :
    awardTotalFor (a :: as) u
      = (if a.userId = u then a.amount else 0) + awardTotalFor as u := by
  by_cases h : a.userId = u
  · simp [awardTotalFor, List.filter_cons, h]
  · simp [awardTotalFor, List.filter_cons, h]

/-- C4: with prizeMode spread and an effective top-8 bracket, the awards
are floor(P*0.40) to rank 1 plus the whole undistributed remainder,
floor(P*0.20) to rank 2, floor(floor(P*0.10)/2) to each of ranks 3-4 and
floor(floor(P*0.05)/4) to each of ranks 5-8, and the total distributed is
exactly the pool P. -/
theorem spread_top8_prize_distribution (P : Nat)
    (q1 q2 q3 q4 q5 q6 q7 q8 : RankedPlayer) (rest : List RankedPlayer)
    (numQualified : Nat)
    (hb : prizeBracket numQualified = 8)
    (hr1 : q1.finalRank = 1) (hr2 : q2.finalRank = 2) (hr3 : q3.finalRank = 3)
    (hr4 : q4.finalRank = 4) (hr5 : q5.finalRank = 5) (hr6 : q6.finalRank = 6)
    (hr7 : q7.finalRank = 7) (hr8 : q8.finalRank = 8)
    (hrest : ∀ p ∈ rest, 8 < p.finalRank)
    (hnd : ([q1.userId, q2.userId, q3.userId, q4.userId, q5.userId,
      q6.userId, q7.userId, q8.userId] : List Nat).Nodup) :
    awardTotalFor (spreadPrizeDistribution P
        (q1 :: q2 :: q3 :: q4 :: q5 :: q6 :: q7 :: q8 :: rest) numQualified) q1.userId
      = v40 P + ((P : Int) - top8BandSum P) ∧
    awardTotalFor (spreadPrizeDistribution P
        (q1 :: q2 :: q3 :: q4 :: q5 :: q6 :: q7 :: q8 :: rest) numQualified) q2.userId
      = v20 P ∧
    awardTotalFor (spreadPrizeDistribution P
        (q1 :: q2 :: q3 :: q4 :: q5 :: q6 :: q7 :: q8 :: rest) numQualified) q3.userId
      = w34 P ∧
    awardTotalFor (spreadPrizeDistribution P
        (q1 :: q2 :: q3 :: q4 :: q5 :: q6 :: q7 :: q8 :: rest) numQualified) q4.userId
      = w34 P ∧
    awardTotalFor (spreadPrizeDistribution P
        (q1 :: q2 :: q3 :: q4 :: q5 :: q6 :: q7 :: q8 :: rest) numQualified) q5.userId
      = w58 P ∧
    awardTotalFor (spreadPrizeDistribution P
        (q1 :: q2 :: q3 :: q4 :: q5 :: q6 :: q7 :: q8 :: rest) numQualified) q6.userId
      = w58 P ∧
    awardTotalFor (spreadPrizeDistribution P
        (q1 :: q2 :: q3 :: q4 :: q5 :: q6 :: q7 :: q8 :: rest) numQualified) q7.userId
      = w58 P ∧
    awardTotalFor (spreadPrizeDistribution P
        (q1 :: q2 :: q3 :: q4 :: q5 :: q6 :: q7 :: q8 :: rest) numQualified) q8.userId
      = w58 P ∧
    awardsSum (spreadPrizeDistribution P
        (q1 :: q2 :: q3 :: q4 :: q5 :: q6 :: q7 :: q8 :: rest) numQualified)
      = (P : Int) := by
  have hpend := pendingPrizeAwards_top8 P q1 q2 q3 q4 q5 q6 q7 q8 rest
    hr1 hr2 hr3 hr4 hr5 hr6 hr7 hr8 hrest
  have hprop : proportionsFor (prizeBracket numQualified) = top8_cut := by
    rw [hb]
    unfold proportionsFor
    rw [if_neg (by norm_num), if_neg (by norm_num), if_pos (by norm_num)]
  simp only [List.nodup_cons, List.mem_cons, List.mem_singleton,
    List.not_mem_nil, or_false, not_or] at hnd
  obtain ⟨⟨h12, h13, h14, h15, h16, h17, h18⟩,
    ⟨h23, h24, h25, h26, h27, h28⟩, ⟨h34, h35, h36, h37, h38⟩,
    ⟨h45, h46, h47, h48⟩, ⟨h56, h57, h58u⟩, ⟨h67, h68⟩, h78, -⟩ := hnd
  have s21 : ¬q2.userId = q1.userId := fun h => h12 h.symm
  have s31 : ¬q3.userId = q1.userId := fun h => h13 h.symm
  have s41 : ¬q4.userId = q1.userId := fun h => h14 h.symm
  have s51 : ¬q5.userId = q1.userId := fun h => h15 h.symm
  have s61 : ¬q6.userId = q1.userId := fun h => h16 h.symm
  have s71 : ¬q7.userId = q1.userId := fun h => h17 h.symm
  have s81 : ¬q8.userId = q1.userId := fun h => h18 h.symm
  have s32 : ¬q3.userId = q2.userId := fun h => h23 h.symm
  have s42 : ¬q4.userId = q2.userId := fun h => h24 h.symm
  have s52 : ¬q5.userId = q2.userId := fun h => h25 h.symm
  have s62 : ¬q6.userId = q2.userId := fun h => h26 h.symm
  have s72 : ¬q7.userId = q2.userId := fun h => h27 h.symm
  have s82 : ¬q8.userId = q2.userId := fun h => h28 h.symm
  have s43 : ¬q4.userId = q3.userId := fun h => h34 h.symm
  have s53 : ¬q5.userId = q3.userId := fun h => h35 h.symm
  have s63 : ¬q6.userId = q3.userId := fun h => h36 h.symm
  have s73 : ¬q7.userId = q3.userId := fun h => h37 h.symm
  have s83 : ¬q8.userId = q3.userId := fun h => h38 h.symm
  have s54 : ¬q5.userId = q4.userId := fun h => h45 h.symm
  have s64 : ¬q6.userId = q4.userId := fun h => h46 h.symm
  have s74 : ¬q7.userId = q4.userId := fun h => h47 h.symm
  have s84 : ¬q8.userId = q4.userId := fun h => h48 h.symm
  have s65 : ¬q6.userId = q5.userId := fun h => h56 h.symm
  have s75 : ¬q7.userId = q5.userId := fun h => h57 h.symm
  have s85 : ¬q8.userId = q5.userId := fun h => h58u h.symm
  have s76 : ¬q7.userId = q6.userId := fun h => h67 h.symm
  have s86 : ¬q8.userId = q6.userId := fun h => h68 h.symm
  have s87 : ¬q8.userId = q7.userId := fun h => h78 h.symm
  have hT1 : ∀ u : Nat,
      awardTotalFor (if v40 P ≤ 0 then [] else [⟨q1.userId, v40 P, 1⟩]) u
        = if q1.userId = u then v40 P else 0 := by
    intro u
    have hnn := v40_nonneg P
    split
    · next h =>
        have hz : v40 P = 0 := le_antisymm h hnn
        simp [awardTotalFor, hz]
    · by_cases hu : q1.userId = u
      · simp [awardTotalFor, hu]
      · simp [awardTotalFor, beq_iff_eq, hu]
  have hT2 : ∀ u : Nat,
      awardTotalFor (if v20 P ≤ 0 then [] else [⟨q2.userId, v20 P, 2⟩]) u
        = if q2.userId = u then v20 P else 0 := by
    intro u
    have hnn := v20_nonneg P
    split
    · next h =>
        have hz : v20 P = 0 := le_antisymm h hnn
        simp [awardTotalFor, hz]
    · by_cases hu : q2.userId = u
      · simp [awardTotalFor, hu]
      · simp [awardTotalFor, beq_iff_eq, hu]
  have hT34 : ∀ u : Nat,
      awardTotalFor
        (if w34 P ≤ 0 then [] else [⟨q3.userId, w34 P, 3⟩, ⟨q4.userId, w34 P, 4⟩]) u
        = (if q3.userId = u then w34 P else 0) + (if q4.userId = u then w34 P else 0) := by
    intro u
    have hnn := w34_nonneg P
    split
    · next h =>
        have hz : w34 P = 0 := le_antisymm h hnn
        simp [awardTotalFor, hz]
    · rw [awardTotalFor_cons, awardTotalFor_cons]
      simp [awardTotalFor]
  have hT58 : ∀ u : Nat,
      awardTotalFor
        (if w58 P ≤ 0 then []
          else [⟨q5.userId, w58 P, 5⟩, ⟨q6.userId, w58 P, 6⟩,
                ⟨q7.userId, w58 P, 7⟩, ⟨q8.userId, w58 P, 8⟩]) u
        = (if q5.userId = u then w58 P else 0) + (if q6.userId = u then w58 P else 0)
          + (if q7.userId = u then w58 P else 0) + (if q8.userId = u then w58 P else 0) := by
    intro u
    have hnn := w58_nonneg P
    split
    · next h =>
        have hz : w58 P = 0 := le_antisymm h hnn
        simp [awardTotalFor, hz]
    · rw [awardTotalFor_cons, awardTotalFor_cons, awardTotalFor_cons, awardTotalFor_cons]
      simp [awardTotalFor]
      ring
  have hS1 : awardsSum (if v40 P ≤ 0 then [] else [⟨q1.userId, v40 P, 1⟩]) = v40 P := by
    have hnn := v40_nonneg P
    split
    · next h => simp [awardsSum]; omega
    · simp [awardsSum]
  have hS2 : awardsSum (if v20 P ≤ 0 then [] else [⟨q2.userId, v20 P, 2⟩]) = v20 P := by
    have hnn := v20_nonneg P
    split
    · next h => simp [awardsSum]; omega
    · simp [awardsSum]
  have hS34 : awardsSum
      (if w34 P ≤ 0 then [] else [⟨q3.userId, w34 P, 3⟩, ⟨q4.userId, w34 P, 4⟩])
      = 2 * w34 P := by
    have hnn := w34_nonneg P
    split
    · next h => simp [awardsSum]; omega
    · simp [awardsSum]; ring
  have hS58 : awardsSum
      (if w58 P ≤ 0 then []
        else [⟨q5.userId, w58 P, 5⟩, ⟨q6.userId, w58 P, 6⟩,
              ⟨q7.userId, w58 P, 7⟩, ⟨q8.userId, w58 P, 8⟩])
      = 4 * w58 P := by
    have hnn := w58_nonneg P
    split
    · next h => simp [awardsSum]; omega
    · simp [awardsSum]; ring
  have ht : totalAuraDistributed P
      (q1 :: q2 :: q3 :: q4 :: q5 :: q6 :: q7 :: q8 :: rest) top8_cut
      = top8BandSum P := by
    rw [show totalAuraDistributed P
        (q1 :: q2 :: q3 :: q4 :: q5 :: q6 :: q7 :: q8 :: rest) top8_cut
      = awardsSum (pendingPrizeAwards P
        (q1 :: q2 :: q3 :: q4 :: q5 :: q6 :: q7 :: q8 :: rest) top8_cut) from rfl]
    rw [hpend, awardsSum_append, awardsSum_append, awardsSum_append,
      hS1, hS2, hS34, hS58]
    unfold top8BandSum
    ring
  have hgoal : spreadPrizeDistribution P
      (q1 :: q2 :: q3 :: q4 :: q5 :: q6 :: q7 :: q8 :: rest) numQualified
      = spreadAwards P (q1 :: q2 :: q3 :: q4 :: q5 :: q6 :: q7 :: q8 :: rest) top8_cut := by
    unfold spreadPrizeDistribution
    rw [hprop]
  rw [hgoal]
  simp only [spreadAwards, ht, hpend]
  have hany2 : (if v20 P ≤ 0 then ([] : List PrizeAward)
      else [⟨q2.userId, v20 P, 2⟩]).any (fun a => a.finalRank == 1) = false := by
    split <;> simp
  have hany34 : (if w34 P ≤ 0 then ([] : List PrizeAward)
      else [⟨q3.userId, w34 P, 3⟩, ⟨q4.userId, w34 P, 4⟩]).any
      (fun a => a.finalRank == 1) = false := by
    split <;> simp
  have hany58 : (if w58 P ≤ 0 then ([] : List PrizeAward)
      else [⟨q5.userId, w58 P, 5⟩, ⟨q6.userId, w58 P, 6⟩,
            ⟨q7.userId, w58 P, 7⟩, ⟨q8.userId, w58 P, 8⟩]).any
      (fun a => a.finalRank == 1) = false := by
    split <;> simp
  have hrnn : 0 ≤ (P : Int) - top8BandSum P := by
    have := top8BandSum_le_pool P
    omega
  by_cases hrem : 0 < (P : Int) - top8BandSum P
  · rw [if_pos hrem]
    by_cases hv1 : v40 P ≤ 0
    · have hv40z : v40 P = 0 := le_antisymm hv1 (v40_nonneg P)
      have hany : ((((if v40 P ≤ 0 then [] else [⟨q1.userId, v40 P, 1⟩])
          ++ ((if v20 P ≤ 0 then [] else [⟨q2.userId, v20 P, 2⟩])
          ++ ((if w34 P ≤ 0 then [] else [⟨q3.userId, w34 P, 3⟩, ⟨q4.userId, w34 P, 4⟩])
          ++ (if w58 P ≤ 0 then []
              else [⟨q5.userId, w58 P, 5⟩, ⟨q6.userId, w58 P, 6⟩,
                    ⟨q7.userId, w58 P, 7⟩, ⟨q8.userId, w58 P, 8⟩])))) : List PrizeAward)).any
          (fun a => a.finalRank == 1) = false := by
        simp only [List.any_append, hany2, hany34, hany58, if_pos hv1]
        simp
      rw [hany]
      simp only [Bool.false_eq_true, if_false]
      have hfind : (q1 :: q2 :: q3 :: q4 :: q5 :: q6 :: q7 :: q8 :: rest).find?
          (fun p => p.finalRank == 1) = some q1 := by
        simp [List.find?_cons, hr1]
      rw [hfind]
      refine ⟨?_, ?_, ?_, ?_, ?_, ?_, ?_, ?_, ?_⟩
      all_goals
        simp only [awardTotalFor_append, awardsSum_append, hT1, hT2, hT34, hT58,
          hS1, hS2, hS34, hS58, awardTotalFor_cons, awardTotalFor_nil_eq,
          awardsSum_cons_eq, awardsSum_nil_eq]
      all_goals try simp [h12, h13, h14, h15, h16, h17, h18, h23, h24, h25, h26, h27, h28, h34, h35, h36, h37, h38, h45, h46, h47, h48, h56, h57, h58u, h67, h68, h78, s21, s31, s41, s51, s61, s71, s81, s32, s42, s52, s62, s72, s82, s43, s53, s63, s73, s83, s54, s64, s74, s84, s65, s75, s85, s76, s86, s87]
      all_goals try simp only [top8BandSum]
      all_goals omega
    · have hB1 : (if v40 P ≤ 0 then ([] : List PrizeAward) else [⟨q1.userId, v40 P, 1⟩])
          = [⟨q1.userId, v40 P, 1⟩] := if_neg hv1
      rw [hB1]
      have hanyT : ((((⟨q1.userId, v40 P, 1⟩ : PrizeAward)
          :: ((if v20 P ≤ 0 then [] else [⟨q2.userId, v20 P, 2⟩])
          ++ ((if w34 P ≤ 0 then [] else [⟨q3.userId, w34 P, 3⟩, ⟨q4.userId, w34 P, 4⟩])
          ++ (if w58 P ≤ 0 then []
              else [⟨q5.userId, w58 P, 5⟩, ⟨q6.userId, w58 P, 6⟩,
                    ⟨q7.userId, w58 P, 7⟩, ⟨q8.userId, w58 P, 8⟩])))) : List PrizeAward)).any
          (fun a => a.finalRank == 1) = true := by
        simp
      rw [List.singleton_append, hanyT]
      simp only [if_true]
      have hbump : bumpFirstRank1 ((P : Int) - top8BandSum P)
          ((⟨q1.userId, v40 P, 1⟩ : PrizeAward)
            :: ((if v20 P ≤ 0 then [] else [⟨q2.userId, v20 P, 2⟩])
            ++ ((if w34 P ≤ 0 then [] else [⟨q3.userId, w34 P, 3⟩, ⟨q4.userId, w34 P, 4⟩])
            ++ (if w58 P ≤ 0 then []
                else [⟨q5.userId, w58 P, 5⟩, ⟨q6.userId, w58 P, 6⟩,
                      ⟨q7.userId, w58 P, 7⟩, ⟨q8.userId, w58 P, 8⟩]))))
          = (⟨q1.userId, v40 P + ((P : Int) - top8BandSum P), 1⟩ : PrizeAward)
            :: ((if v20 P ≤ 0 then [] else [⟨q2.userId, v20 P, 2⟩])
            ++ ((if w34 P ≤ 0 then [] else [⟨q3.userId, w34 P, 3⟩, ⟨q4.userId, w34 P, 4⟩])
            ++ (if w58 P ≤ 0 then []
                else [⟨q5.userId, w58 P, 5⟩, ⟨q6.userId, w58 P, 6⟩,
                      ⟨q7.userId, w58 P, 7⟩, ⟨q8.userId, w58 P, 8⟩]))) := by
        simp [bumpFirstRank1]
      rw [hbump]
      refine ⟨?_, ?_, ?_, ?_, ?_, ?_, ?_, ?_, ?_⟩
      all_goals
        simp only [awardTotalFor_append, awardsSum_append, hT2, hT34, hT58,
          hS2, hS34, hS58, awardTotalFor_cons, awardTotalFor_nil_eq,
          awardsSum_cons_eq, awardsSum_nil_eq]
      all_goals try simp [h12, h13, h14, h15, h16, h17, h18, h23, h24, h25, h26, h27, h28, h34, h35, h36, h37, h38, h45, h46, h47, h48, h56, h57, h58u, h67, h68, h78, s21, s31, s41, s51, s61, s71, s81, s32, s42, s52, s62, s72, s82, s43, s53, s63, s73, s83, s54, s64, s74, s84, s65, s75, s85, s76, s86, s87]
      all_goals try simp only [top8BandSum]
      all_goals omega
  · rw [if_neg hrem]
    have hremz : (P : Int) - top8BandSum P = 0 := by omega
    have hremz2 : (P : Int) - (v40 P + v20 P + 2 * w34 P + 4 * w58 P) = 0 := by
      simpa only [top8BandSum] using hremz
    refine ⟨?_, ?_, ?_, ?_, ?_, ?_, ?_, ?_, ?_⟩
    all_goals
      simp only [awardTotalFor_append, awardsSum_append, hT1, hT2, hT34, hT58,
        hS1, hS2, hS34, hS58]
    all_goals try simp [h12, h13, h14, h15, h16, h17, h18, h23, h24, h25, h26, h27, h28, h34, h35, h36, h37, h38, h45, h46, h47, h48, h56, h57, h58u, h67, h68, h78, s21, s31, s41, s51, s61, s71, s81, s32, s42, s52, s62, s72, s82, s43, s53, s63, s73, s83, s54, s64, s74, s84, s65, s75, s85, s76, s86, s87]
    all_goals try simp only [top8BandSum]
    all_goals omega

/- ## dropPlayer (part_013, lines 2045-2176)

The tournament document fields dropPlayer reads and writes, and the
transaction body as a pure function: the single tournament the handler
looked up is part of the state, errors model thrown exceptions after
abortTransaction (they carry no state, so nothing is committed). -/

structure DropTournament where
  tournamentId : String
  organizerId : Nat
  status : String
  currentRound : Nat
  participants : List Nat
deriving Repr, DecidableEq

structure DropState where
  tournament : DropTournament
  playerStats : List PlayerStats
  stateMatches : List MatchDoc
deriving Repr, DecidableEq

/-- Match.findOne for the player's current-round match (either side). -/
def findCurrentMatch (ms : List MatchDoc) (round : Nat) (playerId : Nat) :
    Option MatchDoc :=
  ms.find? (fun m => m.roundNumber == round &&
    (m.player1 == some playerId || m.player2 == some playerId))

/-- The committed part of dropPlayer once all guards have passed: mark the
player inactive, remove them from participants, then resolve the current
match (opponent wins by default, +3 score / +1 win / addToSet; a bye match
for the dropped player is voided). -/
def dropCommit (st : DropState) (playerId : Nat) (cm : Option MatchDoc) :
    DropState × String :=
  let stats1 := st.playerStats.map (fun s =>
    if s.userId = playerId then { s with activeInTournament := false } else s)
  let participants1 := st.tournament.participants.filter (fun p => p ≠ playerId)
  let t1 := { st.tournament with participants := participants1 }
  match cm with
  | none => ({ st with tournament := t1, playerStats := stats1 }, "")
  | some m =>
    let resolved :
        Option Nat × Option Nat × String :=
      match m.player1, m.player2 with
      | some a, some b =>
        if a = playerId then
          (some b, some b,
           "Match " ++ toString m.matchId ++ ": <@" ++ toString b ++
             "> wins by default as <@" ++ toString playerId ++ "> was dropped.")
        else if b = playerId then
          (some a, some a,
           "Match " ++ toString m.matchId ++ ": <@" ++ toString a ++
             "> wins by default as <@" ++ toString playerId ++ "> was dropped.")
        else (m.winnerId, none, "")
      | some a, none =>
        if a = playerId then
          (m.winnerId, none,
           "Match " ++ toString m.matchId ++ " (BYE for <@" ++
             toString playerId ++ ">) is void as player was dropped.")
        else (m.winnerId, none, "")
      | _, _ => (m.winnerId, none, "")
    let m1 := { m with winnerId := resolved.1, reported := true }
    let stats2 :=
      match resolved.2.1, resolved.1 with
      | some oppId, some _ =>
        stats1.map (fun s =>
          if s.userId = oppId then
            { s with score := s.score + 3, wins := s.wins + 1,
                     opponents := addToSet playerId s.opponents }
          else s)
      | _, _ => stats1
    let ms1 := st.stateMatches.map (fun x => if x.matchId = m.matchId then m1 else x)
    ({ st with tournament := t1, playerStats := stats2, stateMatches := ms1 },
     resolved.2.2)

/-- dropPlayer as run inside its transaction: each throw aborts, so the
error branch returns no state. -/
def dropPlayer (st : DropState) (playerId organizerId : Nat) :
    Except String (DropState × String) :=
  let t := st.tournament
  if t.organizerId ≠ organizerId then
    Except.error "Only the tournament organizer can drop players."
  else if t.status ≠ "active" then
    Except.error ("Tournament is not active. Current status: " ++ t.status ++
      ". Players cannot be dropped.")
  else
    match findStat st.playerStats playerId with
    | none =>
      Except.error ("Player is not registered in tournament " ++
        t.tournamentId ++ ".")
    | some playerStat =>
      if playerStat.activeInTournament = false then
        Except.error "Player is already inactive in this tournament."
      else
        let cm := findCurrentMatch st.stateMatches t.currentRound playerId
        if cm.any (fun m => m.reported) then
          Except.error ("Player's match for the current round (" ++
            toString t.currentRound ++
            ") has already been reported. Cannot drop.")
        else
          Except.ok (dropCommit st playerId cm)

/-- C9: whenever the guards up to the match check pass but the player's
current-round match is already reported, dropPlayer throws — the
transaction aborts with no committed write, so the player stays active
and in the participants list and no match or stat changes (the error
value of the pure transaction carries no state). -/
theorem dropPlayer_rejects_reported_current_match
    (st : DropState) (playerId organizerId : Nat) (m : MatchDoc)
    (stat : PlayerStats)
    (horg : st.tournament.organizerId = organizerId)
    (hact : st.tournament.status = "active")
    (hstat : findStat st.playerStats playerId = some stat)
    (hactive : stat.activeInTournament = true)
    (hcm : findCurrentMatch st.stateMatches st.tournament.currentRound playerId
      = some m)
    (hrep : m.reported = true) :
    dropPlayer st playerId organizerId =
      Except.error ("Player's match for the current round (" ++
        toString st.tournament.currentRound ++
        ") has already been reported. Cannot drop.") := by
  unfold dropPlayer
  rw [if_neg (by simp [horg]), if_neg (by simp [hact]), hstat]
  simp [hactive, hcm, hrep]

/-- Witness for C9: a two-player round-1 tournament whose round-1 match is
already reported; the organizer's drop of player 1 is rejected. -/
theorem dropPlayer_rejects_reported_current_match_witness :
    dropPlayer
      ⟨⟨"T1", 10, "active", 1, [1, 2]⟩,
       [mkStats 1 3 [2], mkStats 2 0 [1]],
       [⟨1, 1, false, some 1, some 2, some 1, false, true⟩]⟩ 1 10 =
      Except.error
        "Player's match for the current round (1) has already been reported. Cannot drop." := by
  exact dropPlayer_rejects_reported_current_match
    ⟨⟨"T1", 10, "active", 1, [1, 2]⟩,
     [mkStats 1 3 [2], mkStats 2 0 [1]],
     [⟨1, 1, false, some 1, some 2, some 1, false, true⟩]⟩
    1 10 ⟨1, 1, false, some 1, some 2, some 1, false, true⟩ (mkStats 1 3 [2])
    rfl rfl (by decide) (by decide) (by decide) rfl

/-- Witness for C4, the spec's Scenario C: pool 1000 with a top-8 cut
pays 652 (400 plus the 252 remainder), 200, 50, 50, 12, 12, 12, 12 —
exactly 1000 in total. -/
theorem spread_top8_prize_distribution_witness :
    awardTotalFor (spreadPrizeDistribution 1000
      [⟨1, 0, 1⟩, ⟨2, 0, 2⟩, ⟨3, 0, 3⟩, ⟨4, 0, 4⟩,
       ⟨5, 0, 5⟩, ⟨6, 0, 6⟩, ⟨7, 0, 7⟩, ⟨8, 0, 8⟩] 8) 1 = 652 ∧
    awardTotalFor (spreadPrizeDistribution 1000
      [⟨1, 0, 1⟩, ⟨2, 0, 2⟩, ⟨3, 0, 3⟩, ⟨4, 0, 4⟩,
       ⟨5, 0, 5⟩, ⟨6, 0, 6⟩, ⟨7, 0, 7⟩, ⟨8, 0, 8⟩] 8) 2 = 200 ∧
    awardTotalFor (spreadPrizeDistribution 1000
      [⟨1, 0, 1⟩, ⟨2, 0, 2⟩, ⟨3, 0, 3⟩, ⟨4, 0, 4⟩,
       ⟨5, 0, 5⟩, ⟨6, 0, 6⟩, ⟨7, 0, 7⟩, ⟨8, 0, 8⟩] 8) 3 = 50 ∧
    awardTotalFor (spreadPrizeDistribution 1000
      [⟨1, 0, 1⟩, ⟨2, 0, 2⟩, ⟨3, 0, 3⟩, ⟨4, 0, 4⟩,
       ⟨5, 0, 5⟩, ⟨6, 0, 6⟩, ⟨7, 0, 7⟩, ⟨8, 0, 8⟩] 8) 4 = 50 ∧
    awardTotalFor (spreadPrizeDistribution 1000
      [⟨1, 0, 1⟩, ⟨2, 0, 2⟩, ⟨3, 0, 3⟩, ⟨4, 0, 4⟩,
       ⟨5, 0, 5⟩, ⟨6, 0, 6⟩, ⟨7, 0, 7⟩, ⟨8, 0, 8⟩] 8) 5 = 12 ∧
    awardTotalFor (spreadPrizeDistribution 1000
      [⟨1, 0, 1⟩, ⟨2, 0, 2⟩, ⟨3, 0, 3⟩, ⟨4, 0, 4⟩,
       ⟨5, 0, 5⟩, ⟨6, 0, 6⟩, ⟨7, 0, 7⟩, ⟨8, 0, 8⟩] 8) 6 = 12 ∧
    awardTotalFor (spreadPrizeDistribution 1000
      [⟨1, 0, 1⟩, ⟨2, 0, 2⟩, ⟨3, 0, 3⟩, ⟨4, 0, 4⟩,
       ⟨5, 0, 5⟩, ⟨6, 0, 6⟩, ⟨7, 0, 7⟩, ⟨8, 0, 8⟩] 8) 7 = 12 ∧
    awardTotalFor (spreadPrizeDistribution 1000
      [⟨1, 0, 1⟩, ⟨2, 0, 2⟩, ⟨3, 0, 3⟩, ⟨4, 0, 4⟩,
       ⟨5, 0, 5⟩, ⟨6, 0, 6⟩, ⟨7, 0, 7⟩, ⟨8, 0, 8⟩] 8) 8 = 12 ∧
    awardsSum (spreadPrizeDistribution 1000
      [⟨1, 0, 1⟩, ⟨2, 0, 2⟩, ⟨3, 0, 3⟩, ⟨4, 0, 4⟩,
       ⟨5, 0, 5⟩, ⟨6, 0, 6⟩, ⟨7, 0, 7⟩, ⟨8, 0, 8⟩] 8) = 1000 := by
  have hv40 : v40 1000 = 400 := by
    unfold v40
    rw [show ((1000 : ℕ) : ℚ) * (40/100) = ((400 : Int) : ℚ) by norm_num]
    exact Int.floor_intCast 400
  have hv20 : v20 1000 = 200 := by
    unfold v20
    rw [show ((1000 : ℕ) : ℚ) * (20/100) = ((200 : Int) : ℚ) by norm_num]
    exact Int.floor_intCast 200
  have hf10 : f10 1000 = 100 := by
    unfold f10
    rw [show ((1000 : ℕ) : ℚ) * (10/100) = ((100 : Int) : ℚ) by norm_num]
    exact Int.floor_intCast 100
  have hf05 : f05 1000 = 50 := by
    unfold f05
    rw [show ((1000 : ℕ) : ℚ) * (5/100) = ((50 : Int) : ℚ) by norm_num]
    exact Int.floor_intCast 50
  have hw34v : w34 1000 = 50 := by
    unfold w34
    rw [hf10, show ((100 : Int) : ℚ) / 2 = ((50 : Int) : ℚ) by norm_num]
    exact Int.floor_intCast 50
  have hw58v : w58 1000 = 12 := by
    unfold w58
    rw [hf05, Int.floor_eq_iff]
    constructor <;> norm_num
  have h := spread_top8_prize_distribution 1000
    ⟨1, 0, 1⟩ ⟨2, 0, 2⟩ ⟨3, 0, 3⟩ ⟨4, 0, 4⟩ ⟨5, 0, 5⟩ ⟨6, 0, 6⟩ ⟨7, 0, 7⟩ ⟨8, 0, 8⟩
    [] 8 (by decide) rfl rfl rfl rfl rfl rfl rfl rfl
    (by intro p hp; cases hp) (by decide)
  norm_num [top8BandSum, hv40, hv20, hw34v, hw58v] at h
  exact h

end FumbleBot
